import Mathlib

/-!
# Region utilities of the layout database (`dbRegionUtils.h`)

A shallow embedding of the polygon filters and of the grid snapper declared in
`src/db/db/dbRegionUtils.h`, with the properties stated for them.

The geometric kernel (points, edges, boxes, polygons and their operations) is a
library the header consumes.  The filters are therefore embedded over a
`GeometryKernel`, a record of the kernel operations they call, and the general
statements hold for every such record.  `specKernel` is one concrete kernel,
used for the worked examples.

Coordinates are `Int`, distances and perimeters are `Nat`.  The widths of
`db::Coord`, `distance_type`, `perimeter_type` and `area_type` are fixed in a
header that is not among the sources.  The formulas are embedded in exact
arithmetic first; `snap_to_grid` and the bounding box value, whose sums can leave
the range of their types, are embedded a second time for a type of a given
number of bits (`snap_to_grid_fixed`, `RegionBBoxFilter.value_fixed`), and the
properties which depend on the range are stated for these.
-/

namespace db

/-! ## Data model -/

/-- A point with integer coordinates. -/
structure Point where
  x : Int
  y : Int
deriving DecidableEq

/-- An edge, an ordered pair of points. -/
structure Edge where
  p1 : Point
  p2 : Point
deriving DecidableEq

/-- A box given by its lower left point `p1` and its upper right point `p2`. -/
structure Box where
  p1 : Point
  p2 : Point
deriving DecidableEq

/-- A polygon: the vertex sequence of the hull and the vertex sequences of the holes. -/
structure Polygon where
  hull : List Point
  holes : List (List Point)
deriving DecidableEq

/-- The operations of the geometric kernel which the filters of `dbRegionUtils.h` call.
Each field stands for one member function of the kernel:
`edges` for the sequence walked by `begin_edge () .. at_end ()`, `length` for
`Edge::length`, `area` for `Polygon::area`, `is_rectilinear` and `is_box` for the
polygon predicates of the same name, `box` for `Polygon::box`, `width` and `height`
for `Box::width` and `Box::height`. -/
structure GeometryKernel where
  edges : Polygon → List Edge
  length : Edge → Nat
  area : Polygon → Int
  is_rectilinear : Polygon → Bool
  is_box : Polygon → Bool
  box : Polygon → Box
  width : Box → Nat
  height : Box → Nat

/-! ## Grid snapping -/

/-- The function `snap_to_grid (c, g)` of `dbRegionUtils.h` in exact arithmetic.  The C++
division on integers truncates, which is `Int.tdiv`.  The same code in a coordinate type
of a given width is `snap_to_grid_fixed`. -/
def snap_to_grid (c g : Int) : Int :=
  if c < 0 then
    -g * (Int.tdiv (-c + Int.tdiv (g - 1) 2) g)
  else
    g * (Int.tdiv (c + Int.tdiv g 2) g)

/-! ## Polygon filters -/

/-- The perimeter filter with its members `m_pmin`, `m_pmax`, `m_inverse`.  The bounds
are of the unsigned `perimeter_type`. -/
structure RegionPerimeterFilter where
  m_pmin : Nat
  m_pmax : Nat
  m_inverse : Bool

/-- The loop of `RegionPerimeterFilter::selected`:
`for (e = poly.begin_edge (); ! e.at_end () && p < m_pmax; ++e) p += (*e).length ();`
with `es` the edges not yet visited and `p` the running sum. -/
def RegionPerimeterFilter.accumulate (K : GeometryKernel) (pmax : Nat) : List Edge → Nat → Nat
  | [], p => p
  | e :: es, p =>
    if p < pmax then RegionPerimeterFilter.accumulate K pmax es (p + K.length e) else p

/-- The function `RegionPerimeterFilter::selected`. -/
def RegionPerimeterFilter.selected (K : GeometryKernel) (f : RegionPerimeterFilter)
    (poly : Polygon) : Bool :=
  let p := RegionPerimeterFilter.accumulate K f.m_pmax (K.edges poly) 0
  if !f.m_inverse then
    decide (p ≥ f.m_pmin) && decide (p < f.m_pmax)
  else
    !(decide (p ≥ f.m_pmin) && decide (p < f.m_pmax))

/-- The area filter with its members `m_amin`, `m_amax`, `m_inverse`.  The bounds are
of the signed `area_type`. -/
structure RegionAreaFilter where
  m_amin : Int
  m_amax : Int
  m_inverse : Bool

/-- The function `RegionAreaFilter::selected`. -/
def RegionAreaFilter.selected (K : GeometryKernel) (f : RegionAreaFilter)
    (poly : Polygon) : Bool :=
  let a := K.area poly
  if !f.m_inverse then
    decide (a ≥ f.m_amin) && decide (a < f.m_amax)
  else
    !(decide (a ≥ f.m_amin) && decide (a < f.m_amax))

/-- The rectilinear filter with its member `m_inverse`. -/
structure RectilinearFilter where
  m_inverse : Bool

/-- The function `RectilinearFilter::selected`: `poly.is_rectilinear () != m_inverse`. -/
def RectilinearFilter.selected (K : GeometryKernel) (f : RectilinearFilter)
    (poly : Polygon) : Bool :=
  K.is_rectilinear poly != f.m_inverse

/-- The rectangle filter with its member `m_inverse`. -/
structure RectangleFilter where
  m_inverse : Bool

/-- The function `RectangleFilter::selected`: `poly.is_box () != m_inverse`. -/
def RectangleFilter.selected (K : GeometryKernel) (f : RectangleFilter)
    (poly : Polygon) : Bool :=
  K.is_box poly != f.m_inverse

/-- The enum `RegionBBoxFilter::parameter_type`.  A C++ enum object can hold a value
that is none of its enumerators, so the type is the one of the underlying numbers and
the enumerators are the constants below. -/
abbrev parameter_type := Nat

/-- Enumerator `BoxWidth`. -/
abbrev BoxWidth : parameter_type := 0
/-- Enumerator `BoxHeight`. -/
abbrev BoxHeight : parameter_type := 1
/-- Enumerator `BoxMaxDim`. -/
abbrev BoxMaxDim : parameter_type := 2
/-- Enumerator `BoxMinDim`. -/
abbrev BoxMinDim : parameter_type := 3
/-- Enumerator `BoxAverageDim`. -/
abbrev BoxAverageDim : parameter_type := 4

/-- The bounding box filter with its members `m_vmin`, `m_vmax`, `m_inverse`,
`m_parameter`.  The bounds are of `value_type`, the unsigned `db::Box::distance_type`. -/
structure RegionBBoxFilter where
  m_vmin : Nat
  m_vmax : Nat
  m_inverse : Bool
  m_parameter : parameter_type

/-- The value `v` which `RegionBBoxFilter::selected` computes from the bounding box:
the chain of `if (m_parameter == ...)` with the initial value `0`. -/
def RegionBBoxFilter.value (K : GeometryKernel) (f : RegionBBoxFilter) (poly : Polygon) : Nat :=
  let box := K.box poly
  if f.m_parameter = BoxWidth then
    K.width box
  else if f.m_parameter = BoxHeight then
    K.height box
  else if f.m_parameter = BoxMinDim then
    min (K.width box) (K.height box)
  else if f.m_parameter = BoxMaxDim then
    max (K.width box) (K.height box)
  else if f.m_parameter = BoxAverageDim then
    (K.width box + K.height box) / 2
  else
    0

/-- The function `RegionBBoxFilter::selected`. -/
def RegionBBoxFilter.selected (K : GeometryKernel) (f : RegionBBoxFilter)
    (poly : Polygon) : Bool :=
  let v := RegionBBoxFilter.value K f poly
  if !f.m_inverse then
    decide (v ≥ f.m_vmin) && decide (v < f.m_vmax)
  else
    !(decide (v ≥ f.m_vmin) && decide (v < f.m_vmax))

/-! ## A concrete kernel -/

/-- Modelled from the spec: the edges of one closed contour (the contour iterator of
the polygon class is missing), each vertex joined to the next one and the last vertex
to the first. -/
def contourEdges (pts : List Point) : List Edge :=
  match pts with
  | [] => []
  | p :: rest => List.zipWith Edge.mk (p :: rest) (rest ++ [p])

/-- Modelled from the spec: the edges of a polygon (`Polygon::begin_edge` is missing),
those of the hull followed by those of the holes. -/
def Polygon.edges (poly : Polygon) : List Edge :=
  contourEdges poly.hull ++ (poly.holes.map contourEdges).flatten

/-- Search for the integer square root from `k` downwards. -/
def isqrtFrom : Nat → Nat → Nat
  | 0, _ => 0
  | k + 1, n => if (k + 1) * (k + 1) ≤ n then k + 1 else isqrtFrom k n

/-- The largest `s` with `s * s ≤ n`. -/
def isqrt (n : Nat) : Nat := isqrtFrom n n

/-- Modelled from the spec: the length of an edge (`Edge::length` is missing), the
Euclidean distance of its end points rounded to the nearest integer. -/
def Edge.length (e : Edge) : Nat :=
  let dx := (e.p2.x - e.p1.x).natAbs
  let dy := (e.p2.y - e.p1.y).natAbs
  let n := dx * dx + dy * dy
  let s := isqrt n
  if n > s * s + s then s + 1 else s

/-- Modelled from the spec: twice the signed area of one contour (the contour class is
missing), by the cross products of successive vertices; a clockwise contour counts
positive. -/
def contourArea2 (pts : List Point) : Int :=
  ((contourEdges pts).map (fun e => e.p2.x * e.p1.y - e.p2.y * e.p1.x)).sum

/-- Modelled from the spec: the signed area of a polygon (`Polygon::area` is missing),
half of the sum over its contours. -/
def Polygon.area (poly : Polygon) : Int :=
  Int.tdiv (contourArea2 poly.hull + (poly.holes.map contourArea2).sum) 2

/-- Modelled from the spec: the bounding box of a polygon (`Polygon::box` is missing),
spanned by the least and the greatest coordinates of the hull vertices. -/
def Polygon.box (poly : Polygon) : Box :=
  match poly.hull with
  | [] => ⟨⟨1, 1⟩, ⟨-1, -1⟩⟩
  | p :: rest =>
    ⟨⟨rest.foldl (fun m q => min m q.x) p.x, rest.foldl (fun m q => min m q.y) p.y⟩,
     ⟨rest.foldl (fun m q => max m q.x) p.x, rest.foldl (fun m q => max m q.y) p.y⟩⟩

/-- Modelled from the spec: the width of a box (`Box::width` is missing). -/
def Box.width (b : Box) : Nat := (b.p2.x - b.p1.x).toNat

/-- Modelled from the spec: the height of a box (`Box::height` is missing). -/
def Box.height (b : Box) : Nat := (b.p2.y - b.p1.y).toNat

/-- Modelled from the spec: the polygon made from a box (the constructor of the polygon
class is missing), the four corners clockwise from the lower left one. -/
def Polygon.ofBox (b : Box) : Polygon :=
  ⟨[⟨b.p1.x, b.p1.y⟩, ⟨b.p1.x, b.p2.y⟩, ⟨b.p2.x, b.p2.y⟩, ⟨b.p2.x, b.p1.y⟩], []⟩

/-- Modelled from the spec: box-ness (`Polygon::is_box` is missing), "polygon equals
its bounding box". -/
def Polygon.is_box (poly : Polygon) : Bool :=
  decide (poly = Polygon.ofBox poly.box)

/-- Modelled from the spec: rectilinearity (`Polygon::is_rectilinear` is missing), "all
edges axis-aligned". -/
def Polygon.is_rectilinear (poly : Polygon) : Bool :=
  poly.edges.all (fun e => decide (e.p1.x = e.p2.x) || decide (e.p1.y = e.p2.y))

/-- Modelled from the spec: the geometric kernel assembled from the definitions above. -/
def specKernel : GeometryKernel where
  edges := Polygon.edges
  length := Edge.length
  area := Polygon.area
  is_rectilinear := Polygon.is_rectilinear
  is_box := Polygon.is_box
  box := Polygon.box
  width := Box.width
  height := Box.height

/-- The square of side 10 with its lower left corner at the origin. -/
def square10 : Polygon := Polygon.ofBox ⟨⟨0, 0⟩, ⟨10, 10⟩⟩

/-- The rectangle of width 4 and height 10 with its lower left corner at the origin. -/
def rect4x10 : Polygon := Polygon.ofBox ⟨⟨0, 0⟩, ⟨4, 10⟩⟩

/-- The perimeter of a polygon: the sum of the lengths of all its edges. -/
def perimeter (K : GeometryKernel) (poly : Polygon) : Nat :=
  ((K.edges poly).map K.length).sum

/-! ## Transformation reducers and declared properties -/

/-- The reducer classes which `vars ()` of the filters and processors points to: both
derive from `TransformationReducer`, and a `vars ()` pointer which is null is `none`. -/
inductive TransformationReducer where
  | MagnificationReducer
  | MagnificationAndOrientationReducer
deriving DecidableEq

/-- The function `RegionBBoxFilter::vars`: `&m_isotropic_vars`, a `MagnificationReducer`,
unless the parameter is width or height, and `&m_anisotropic_vars`, a
`MagnificationAndOrientationReducer`, otherwise. -/
def RegionBBoxFilter.vars (f : RegionBBoxFilter) : Option TransformationReducer :=
  if f.m_parameter ≠ BoxWidth ∧ f.m_parameter ≠ BoxHeight then
    some TransformationReducer.MagnificationReducer
  else
    some TransformationReducer.MagnificationAndOrientationReducer

/-- The function `RegionPerimeterFilter::requires_raw_input`. -/
def RegionPerimeterFilter.requires_raw_input (_f : RegionPerimeterFilter) : Bool := false

/-- The function `RegionAreaFilter::requires_raw_input`. -/
def RegionAreaFilter.requires_raw_input (_f : RegionAreaFilter) : Bool := false

/-- The function `RectilinearFilter::requires_raw_input`. -/
def RectilinearFilter.requires_raw_input (_f : RectilinearFilter) : Bool := false

/-- The function `RectangleFilter::requires_raw_input`. -/
def RectangleFilter.requires_raw_input (_f : RectangleFilter) : Bool := false

/-- The function `RegionBBoxFilter::requires_raw_input`. -/
def RegionBBoxFilter.requires_raw_input (_f : RegionBBoxFilter) : Bool := false

/-- The processor of strange polygons; it has no data members. -/
structure StrangePolygonCheckProcessor where
deriving DecidableEq

/-- The function `StrangePolygonCheckProcessor::requires_raw_input`. -/
def StrangePolygonCheckProcessor.requires_raw_input (_p : StrangePolygonCheckProcessor) : Bool :=
  true

/-- The smoothing processor with its member `m_d`. -/
structure SmoothingProcessor where
  m_d : Int

/-- The function `SmoothingProcessor::requires_raw_input`. -/
def SmoothingProcessor.requires_raw_input (_p : SmoothingProcessor) : Bool := false

/-- The corner rounding processor with its members `m_rinner`, `m_router` and `m_n`.  The
radii are of type `double` in the source; the declared properties do not read them, and
`R` is the type standing for them. -/
structure RoundedCornersProcessor (R : Type) where
  m_rinner : R
  m_router : R
  m_n : Nat

/-- The function `RoundedCornersProcessor::requires_raw_input`. -/
def RoundedCornersProcessor.requires_raw_input {R : Type} (_p : RoundedCornersProcessor R) :
    Bool := false

/-- The hole extraction processor; it has no data members. -/
structure HolesExtractionProcessor where
deriving DecidableEq

/-- The function `HolesExtractionProcessor::requires_raw_input`. -/
def HolesExtractionProcessor.requires_raw_input (_p : HolesExtractionProcessor) : Bool := false

/-- The hull extraction processor; it has no data members. -/
structure HullExtractionProcessor where
deriving DecidableEq

/-- The function `HullExtractionProcessor::requires_raw_input`. -/
def HullExtractionProcessor.requires_raw_input (_p : HullExtractionProcessor) : Bool := false

/-! ## Grid snapping with the divisions checked -/

/-- The C++ division of integers: it truncates, and a zero divisor is an error. -/
def checked_div (a b : Int) : Option Int :=
  if b = 0 then none else some (Int.tdiv a b)

/-- The function `snap_to_grid (c, g)` with each division checked for a zero divisor:
`none` stands for a division by zero having been reached. -/
def snap_to_grid_checked (c g : Int) : Option Int :=
  if c < 0 then
    (checked_div (g - 1) 2).bind fun h =>
    (checked_div (-c + h) g).bind fun q =>
    some (-g * q)
  else
    (checked_div g 2).bind fun h =>
    (checked_div (c + h) g).bind fun q =>
    some (g * q)

/-- An edge pair, the unit of the violation output. -/
structure EdgePair where
  first : Edge
  second : Edge
deriving DecidableEq

/-- Modelled from the spec: the relation filter (`EdgeRelationFilter` is missing), a
"pure function `evaluate(edge1, edge2) -> optional<EdgePair>` plus a `distance()`
accessor". -/
structure EdgeRelationFilter where
  evaluate : Edge → Edge → Option EdgePair
  distance : Nat

/-- The data members of `Edge2EdgeCheckBase`. -/
structure Edge2EdgeCheckBase where
  mp_check : EdgeRelationFilter
  m_requires_different_layers : Bool
  m_different_polygons : Bool
  m_distance : Nat
  m_ep : List EdgePair
  m_e2ep : List ((Edge × Nat) × Nat)
  m_pseudo_edges : List (Edge × Nat)
  m_first_pseudo : Nat
  m_ep_discarded : List Bool
  m_with_shielding : Bool
  m_has_edge_pair_output : Bool
  m_has_negative_edge_output : Bool
  m_pass : Nat

/-- The function `Edge2EdgeCheckBase::set_has_negative_edge_output`. -/
def Edge2EdgeCheckBase.set_has_negative_edge_output (s : Edge2EdgeCheckBase) (f : Bool) :
    Edge2EdgeCheckBase :=
  { s with m_has_negative_edge_output := f }

/-- The function `Edge2EdgeCheckBase::set_has_edge_pair_output`. -/
def Edge2EdgeCheckBase.set_has_edge_pair_output (s : Edge2EdgeCheckBase) (f : Bool) :
    Edge2EdgeCheckBase :=
  { s with m_has_edge_pair_output := f }

/-- Modelled from the spec: the constructor of `Edge2EdgeCheckBase` (its body is missing):
the state "Pass 0 (initial)" with nothing recorded, the options as given, the distance
taken from the relation filter, the edge pair output on and the negative edge output off
(the derived classes change these two by the setters). -/
def Edge2EdgeCheckBase.init (check : EdgeRelationFilter)
    (different_polygons requires_different_layers with_shielding : Bool) :
    Edge2EdgeCheckBase where
  mp_check := check
  m_requires_different_layers := requires_different_layers
  m_different_polygons := different_polygons
  m_distance := check.distance
  m_ep := []
  m_e2ep := []
  m_pseudo_edges := []
  m_first_pseudo := 0
  m_ep_discarded := []
  m_with_shielding := with_shielding
  m_has_edge_pair_output := true
  m_has_negative_edge_output := false
  m_pass := 0

/-- Modelled from the spec: step 1 of the procedure per pair of `Edge2EdgeCheckBase::add`
(its body is missing): "Skip if `different_polygons` is required and both edges belong to
the same source polygon (identified by the `set` tag), or if `requires_different_layers`
is required and both edges come from the same input layer".  The input layer of an edge
is a function `layer_of` of its tag. -/
def Edge2EdgeCheckBase.skips (layer_of : Nat → Int) (s : Edge2EdgeCheckBase) (p1 p2 : Nat) :
    Bool :=
  (s.m_different_polygons && decide (p1 = p2)) ||
    (s.m_requires_different_layers && decide (layer_of p1 = layer_of p2))

/-- Modelled from the spec: `Edge2EdgeCheckBase::add` in the initial pass (its body is
missing), steps 1 to 3 of the procedure per pair: skip the pair by step 1; else "evaluate
the Relation Filter against the edge pair; if it signals a violation, record a candidate
EdgePair"; "if shielding is enabled, do not immediately commit the candidate: instead stage
it", here by keying it to its two edges in `m_e2ep`; else commit it.  The result is the new
state and the edge pairs handed to `put` by the call. -/
def Edge2EdgeCheckBase.add (layer_of : Nat → Int) (s : Edge2EdgeCheckBase)
    (o1 : Edge) (p1 : Nat) (o2 : Edge) (p2 : Nat) : Edge2EdgeCheckBase × List EdgePair :=
  if s.skips layer_of p1 p2 then
    (s, [])
  else
    match s.mp_check.evaluate o1 o2 with
    | none => (s, [])
    | some ep =>
      if s.m_with_shielding then
        ({ s with
            m_ep := s.m_ep ++ [ep]
            m_e2ep := s.m_e2ep ++ [((o1, p1), s.m_ep.length), ((o2, p2), s.m_ep.length)] },
          [])
      else
        ({ s with m_ep := s.m_ep ++ [ep] }, [ep])

/-- Modelled from the spec: `Edge2EdgeCheckBase::finish` (its body is missing), step 4 of
the procedure: "On `finish(edge)` (scanner signals no more partners exist for `edge`), any
candidates keyed to that edge that survived shielding are committed".  The candidates keyed
to the edge in `m_e2ep` and not marked in `m_ep_discarded` are handed to `put`; the keys of
the candidates of this edge are removed, as "an edge pair is reported at most once".  The
result is the new state and the edge pairs handed to `put` by the call. -/
def Edge2EdgeCheckBase.finish (s : Edge2EdgeCheckBase) (o : Edge) (p : Nat) :
    Edge2EdgeCheckBase × List EdgePair :=
  let keyed := ((s.m_e2ep.filter (fun k => decide (k.1 = (o, p)))).map (fun k => k.2)).dedup
  let survived := keyed.filter (fun i => !(s.m_ep_discarded.getD i false))
  ({ s with m_e2ep := s.m_e2ep.filter (fun k => decide (k.2 ∉ keyed)) },
    survived.filterMap (fun i => s.m_ep[i]?))

/-- The class `edge2edge_check`: the base class and the output container `*mp_output`. -/
structure edge2edge_check (Output : Type) where
  base : Edge2EdgeCheckBase
  mp_output : Output

/-- The function `edge2edge_check::put`: `mp_output->insert (edge)`, with `insert` the
insertion of the container. -/
def edge2edge_check.put {Output : Type} (insert : Output → EdgePair → Output)
    (c : edge2edge_check Output) (edge : EdgePair) : edge2edge_check Output :=
  { c with mp_output := insert c.mp_output edge }

/-- The call of `add` on an `edge2edge_check` object: the `add` of the base class, whose
calls of the virtual `put` arrive at `edge2edge_check::put`. -/
def edge2edge_check.add {Output : Type} (layer_of : Nat → Int)
    (insert : Output → EdgePair → Output) (c : edge2edge_check Output)
    (o1 : Edge) (p1 : Nat) (o2 : Edge) (p2 : Nat) : edge2edge_check Output :=
  let r := c.base.add layer_of o1 p1 o2 p2
  r.2.foldl (edge2edge_check.put insert) { c with base := r.1 }

/-- The class `edge2edge_check_with_negative_output`: the base class, the edge pair
output `*mp_output` and the two negative edge outputs.  The three containers are
distinct objects. -/
structure edge2edge_check_with_negative_output (Output NegativeEdgeOutput : Type) where
  base : Edge2EdgeCheckBase
  mp_output : Output
  mp_l1_negative_output : NegativeEdgeOutput
  mp_l2_negative_output : NegativeEdgeOutput

/-- The function `edge2edge_check_with_negative_output::put_negative`: two successive
`if` statements on the layer, each with an `insert` into one container. -/
def edge2edge_check_with_negative_output.put_negative {Output NegativeEdgeOutput : Type}
    (insert : NegativeEdgeOutput → Edge → NegativeEdgeOutput)
    (c : edge2edge_check_with_negative_output Output NegativeEdgeOutput)
    (edge : Edge) (layer : Int) : edge2edge_check_with_negative_output Output NegativeEdgeOutput :=
  let c1 :=
    if layer = 0 then
      { c with mp_l1_negative_output := insert c.mp_l1_negative_output edge }
    else c
  if layer = 1 then
    { c1 with mp_l2_negative_output := insert c1.mp_l2_negative_output edge }
  else c1

/-- The class `edge2edge_check_negative`: the base class and the two negative edge
outputs, which are distinct objects. -/
structure edge2edge_check_negative (NegativeEdgeOutput : Type) where
  base : Edge2EdgeCheckBase
  mp_l1_negative_output : NegativeEdgeOutput
  mp_l2_negative_output : NegativeEdgeOutput

/-- The function `edge2edge_check_negative::put_negative`. -/
def edge2edge_check_negative.put_negative {NegativeEdgeOutput : Type}
    (insert : NegativeEdgeOutput → Edge → NegativeEdgeOutput)
    (c : edge2edge_check_negative NegativeEdgeOutput)
    (edge : Edge) (layer : Int) : edge2edge_check_negative NegativeEdgeOutput :=
  let c1 :=
    if layer = 0 then
      { c with mp_l1_negative_output := insert c.mp_l1_negative_output edge }
    else c
  if layer = 1 then
    { c1 with mp_l2_negative_output := insert c1.mp_l2_negative_output edge }
  else c1

/-- Modelled from the spec: a relation filter of the kind "distance-less-than" with a
numeric threshold `d` (the relation filters are missing); `dist` is the distance of two
edges, and the edge pair of a violation is made of the two edges. -/
def distance_less_than (dist : Edge → Edge → Nat) (d : Nat) : EdgeRelationFilter where
  evaluate := fun e1 e2 => if dist e1 e2 < d then some ⟨e1, e2⟩ else none
  distance := d

/-- The distance of two horizontal edges, the difference of their heights. -/
def horizontal_distance (e1 e2 : Edge) : Nat := (e2.p1.y - e1.p1.y).natAbs

/-- The edge from (0, 0) to (10, 0). -/
def lower_edge : Edge := ⟨⟨0, 0⟩, ⟨10, 0⟩⟩

/-- The insertion into a container which keeps the inserted values in a list. -/
def list_insert {α : Type} (l : List α) (x : α) : List α := l ++ [x]

/-- Modelled from the spec: the state of `region_to_edge_interaction_filter_base` (its
member functions are missing) for `get_all = false`: the record `m_interacting` of the
primaries for which `add` has found an interacting partner, the seen-set `m_seen` of the
objects already emitted, which serves "to avoid double emission", and `m_inverse`.
Objects are represented by their identities, of type `P`; the collect-all mode is not part
of the model. -/
structure region_to_edge_interaction_filter_base (P : Type) where
  m_seen : List P
  m_interacting : List P
  m_inverse : Bool

/-- Modelled from the spec: `region_to_text_interaction_filter_base`, "structurally
identical" to the filter for edges; the two differ in the interaction test only. -/
abbrev region_to_text_interaction_filter_base (P : Type) :=
  region_to_edge_interaction_filter_base P

/-- Modelled from the spec: the constructor of the base class (its body is missing) for
`get_all = false`: nothing recorded, nothing emitted. -/
def region_to_edge_interaction_filter_base.init (P : Type) (inverse : Bool) :
    region_to_edge_interaction_filter_base P where
  m_seen := []
  m_interacting := []
  m_inverse := inverse

/-- Modelled from the spec: `add (primary, _, secondary, _)`, which "records that `primary`
has at least one candidate secondary partner", checked by the interaction test
`interacts` (containment or touching for an edge, point-in-polygon for a text). -/
def region_to_edge_interaction_filter_base.add {P S : Type} [DecidableEq P]
    (interacts : P → S → Bool) (s : region_to_edge_interaction_filter_base P)
    (p : P) (e : S) : region_to_edge_interaction_filter_base P :=
  if interacts p e then
    if p ∈ s.m_interacting then s else { s with m_interacting := p :: s.m_interacting }
  else s

/-- Modelled from the spec: the decision of `finish`, "(`interacts` XOR `inverse`)". -/
def region_to_edge_interaction_filter_base.decides {P : Type} [DecidableEq P]
    (s : region_to_edge_interaction_filter_base P) (p : P) : Bool :=
  decide (p ∈ s.m_interacting) != s.m_inverse

/-- Modelled from the spec: `finish (primary)`, "emit `primary` if (`interacts` XOR
`inverse`)", unless the seen-set holds it already; an emitted object enters the seen-set.
The result is the new state and the list of the objects handed to `put`. -/
def region_to_edge_interaction_filter_base.finish {P : Type} [DecidableEq P]
    (s : region_to_edge_interaction_filter_base P) (p : P) :
    region_to_edge_interaction_filter_base P × List P :=
  if s.decides p && !decide (p ∈ s.m_seen) then
    ({ s with m_seen := p :: s.m_seen }, [p])
  else
    (s, [])

/-- The calls of `finish` for a list of primaries, one after the other: the final state and
the objects handed to `put`, in the order of the calls. -/
def region_to_edge_interaction_filter_base.finish_all {P : Type} [DecidableEq P]
    (s : region_to_edge_interaction_filter_base P) :
    List P → region_to_edge_interaction_filter_base P × List P
  | [] => (s, [])
  | p :: rest =>
    ((region_to_edge_interaction_filter_base.finish_all (s.finish p).1 rest).1,
      (s.finish p).2 ++ (region_to_edge_interaction_filter_base.finish_all (s.finish p).1 rest).2)

/-- Modelled from the spec: one run of the filter driven by the scanner, which calls `add`
for every reported pair and `finish` for every primary after its last pair.  The result is
the final state and the sequence of the objects handed to `put`. -/
def region_to_edge_interaction_filter_base.run {P S : Type} [DecidableEq P]
    (interacts : P → S → Bool) (s : region_to_edge_interaction_filter_base P)
    (primaries : List P) (pairs : List (P × S)) :
    region_to_edge_interaction_filter_base P × List P :=
  (pairs.foldl
    (fun s pe => region_to_edge_interaction_filter_base.add interacts s pe.1 pe.2)
    s).finish_all primaries

/-- The class `region_to_edge_interaction_filter`: the base class and the output
container `*mp_output`. -/
structure region_to_edge_interaction_filter (P OutputContainer : Type) where
  base : region_to_edge_interaction_filter_base P
  mp_output : OutputContainer

/-- The constructor of `region_to_edge_interaction_filter`, with `get_all = false`: the
constructor of the base class and the output container. -/
def region_to_edge_interaction_filter.create {P OutputContainer : Type}
    (output : OutputContainer) (inverse : Bool) :
    region_to_edge_interaction_filter P OutputContainer where
  base := region_to_edge_interaction_filter_base.init P inverse
  mp_output := output

/-- The function `region_to_edge_interaction_filter::put`: `mp_output->insert (res)`. -/
def region_to_edge_interaction_filter.put {P OutputContainer : Type}
    (insert : OutputContainer → P → OutputContainer)
    (c : region_to_edge_interaction_filter P OutputContainer) (res : P) :
    region_to_edge_interaction_filter P OutputContainer :=
  { c with mp_output := insert c.mp_output res }

/-- A run of a `region_to_edge_interaction_filter` object: the run of the base class, whose
calls of the virtual `put` arrive at `region_to_edge_interaction_filter::put`. -/
def region_to_edge_interaction_filter.scan {P S OutputContainer : Type} [DecidableEq P]
    (interacts : P → S → Bool) (insert : OutputContainer → P → OutputContainer)
    (c : region_to_edge_interaction_filter P OutputContainer)
    (primaries : List P) (pairs : List (P × S)) :
    region_to_edge_interaction_filter P OutputContainer :=
  (c.base.run interacts primaries pairs).2.foldl
    (region_to_edge_interaction_filter.put insert)
    { c with base := (c.base.run interacts primaries pairs).1 }

/-- The class `region_to_text_interaction_filter`: the base class and the output
container `*mp_output`. -/
structure region_to_text_interaction_filter (P OutputContainer : Type) where
  base : region_to_text_interaction_filter_base P
  mp_output : OutputContainer

/-- The constructor of `region_to_text_interaction_filter`, with `get_all = false`: the
constructor of the base class and the output container. -/
def region_to_text_interaction_filter.create {P OutputContainer : Type}
    (output : OutputContainer) (inverse : Bool) :
    region_to_text_interaction_filter P OutputContainer where
  base := region_to_edge_interaction_filter_base.init P inverse
  mp_output := output

/-- The function `region_to_text_interaction_filter::put`: `mp_output->insert (poly)`. -/
def region_to_text_interaction_filter.put {P OutputContainer : Type}
    (insert : OutputContainer → P → OutputContainer)
    (c : region_to_text_interaction_filter P OutputContainer) (poly : P) :
    region_to_text_interaction_filter P OutputContainer :=
  { c with mp_output := insert c.mp_output poly }

/-- A run of a `region_to_text_interaction_filter` object: the run of the base class, whose
calls of the virtual `put` arrive at `region_to_text_interaction_filter::put`. -/
def region_to_text_interaction_filter.scan {P S OutputContainer : Type} [DecidableEq P]
    (interacts : P → S → Bool) (insert : OutputContainer → P → OutputContainer)
    (c : region_to_text_interaction_filter P OutputContainer)
    (primaries : List P) (pairs : List (P × S)) :
    region_to_text_interaction_filter P OutputContainer :=
  (region_to_edge_interaction_filter_base.run interacts c.base primaries pairs).2.foldl
    (region_to_text_interaction_filter.put insert)
    { c with base := (region_to_edge_interaction_filter_base.run interacts c.base
        primaries pairs).1 }

/-- The primaries which a newly constructed `region_to_edge_interaction_filter` inserts into
an empty list container in one run. -/
def region_to_edge_interaction_filter.output {P S : Type} [DecidableEq P]
    (interacts : P → S → Bool) (inverse : Bool) (primaries : List P)
    (pairs : List (P × S)) : List P :=
  (region_to_edge_interaction_filter.scan interacts list_insert
    (region_to_edge_interaction_filter.create ([] : List P) inverse) primaries pairs).mp_output

/-- The primaries which a newly constructed `region_to_text_interaction_filter` inserts into
an empty list container in one run. -/
def region_to_text_interaction_filter.output {P S : Type} [DecidableEq P]
    (interacts : P → S → Bool) (inverse : Bool) (primaries : List P)
    (pairs : List (P × S)) : List P :=
  (region_to_text_interaction_filter.scan interacts list_insert
    (region_to_text_interaction_filter.create ([] : List P) inverse) primaries pairs).mp_output

/-! ## Declared properties of the processors and the negative-only checker -/

/-- The function `StrangePolygonCheckProcessor::vars`: the null pointer. -/
def StrangePolygonCheckProcessor.vars (_p : StrangePolygonCheckProcessor) :
    Option TransformationReducer := none

/-- The function `StrangePolygonCheckProcessor::result_is_merged`. -/
def StrangePolygonCheckProcessor.result_is_merged (_p : StrangePolygonCheckProcessor) : Bool :=
  false

/-- The function `SmoothingProcessor::vars`: `&m_vars`, a `MagnificationReducer`. -/
def SmoothingProcessor.vars (_p : SmoothingProcessor) : Option TransformationReducer :=
  some TransformationReducer.MagnificationReducer

/-- The function `SmoothingProcessor::result_is_merged`. -/
def SmoothingProcessor.result_is_merged (_p : SmoothingProcessor) : Bool := false

/-- The function `RoundedCornersProcessor::vars`: `&m_vars`, a `MagnificationReducer`. -/
def RoundedCornersProcessor.vars {R : Type} (_p : RoundedCornersProcessor R) :
    Option TransformationReducer :=
  some TransformationReducer.MagnificationReducer

/-- The function `RoundedCornersProcessor::result_is_merged`. -/
def RoundedCornersProcessor.result_is_merged {R : Type} (_p : RoundedCornersProcessor R) :
    Bool := true

/-- The function `HolesExtractionProcessor::vars`: the null pointer. -/
def HolesExtractionProcessor.vars (_p : HolesExtractionProcessor) :
    Option TransformationReducer := none

/-- The function `HolesExtractionProcessor::result_is_merged`. -/
def HolesExtractionProcessor.result_is_merged (_p : HolesExtractionProcessor) : Bool := true

/-- The function `HullExtractionProcessor::vars`: the null pointer. -/
def HullExtractionProcessor.vars (_p : HullExtractionProcessor) :
    Option TransformationReducer := none

/-- The function `HullExtractionProcessor::result_is_merged`. -/
def HullExtractionProcessor.result_is_merged (_p : HullExtractionProcessor) : Bool := true

/-- The function `Edge2EdgeCheckBase::put`, the normal edge pair output of the base
class: its body is empty. -/
def Edge2EdgeCheckBase.put (s : Edge2EdgeCheckBase) (_edge : EdgePair) : Edge2EdgeCheckBase := s

/-- The function `Edge2EdgeCheckBase::put_negative`, the negative edge output of the base
class: its body is empty. -/
def Edge2EdgeCheckBase.put_negative (s : Edge2EdgeCheckBase) (_edge : Edge) (_layer : Int) :
    Edge2EdgeCheckBase := s

/-- The constructor of `edge2edge_check_negative`: the constructor of the base class, the
two negative edge outputs, then `set_has_negative_edge_output (true)` and
`set_has_edge_pair_output (false)`. -/
def edge2edge_check_negative.create {NegativeEdgeOutput : Type} (check : EdgeRelationFilter)
    (l1_negative_output l2_negative_output : NegativeEdgeOutput)
    (different_polygons requires_different_layers with_shielding : Bool) :
    edge2edge_check_negative NegativeEdgeOutput where
  base :=
    ((Edge2EdgeCheckBase.init check different_polygons requires_different_layers
      with_shielding).set_has_negative_edge_output true).set_has_edge_pair_output false
  mp_l1_negative_output := l1_negative_output
  mp_l2_negative_output := l2_negative_output

/-- The function `put` of `edge2edge_check_negative`: the class does not override it, so it
is `Edge2EdgeCheckBase::put`, which acts on the base class part of the object. -/
def edge2edge_check_negative.put {NegativeEdgeOutput : Type}
    (c : edge2edge_check_negative NegativeEdgeOutput) (edge : EdgePair) :
    edge2edge_check_negative NegativeEdgeOutput :=
  { c with base := c.base.put edge }

/-- The rectangle of width 10 and height 4 with its lower left corner at the origin,
`rect4x10` turned by 90 degrees. -/
def rect10x4 : Polygon := Polygon.ofBox ⟨⟨0, 0⟩, ⟨10, 4⟩⟩

/-! ## Fixed-width arithmetic

`snap_to_grid` above and `RegionBBoxFilter.value` are the formulas of the source in exact
arithmetic.  The source computes in fixed-width types: `snap_to_grid` in the signed
coordinate type `C` of the template, the bounding box value in the unsigned `value_type`.
The definitions of this section embed the same code for a type of `bits` bits, every
arithmetic result reduced to the range of the type (the signed results by two's complement
wrap-around).  The number of bits is declared outside the sources and is a parameter. -/

/-- The value of the signed type of `bits` bits which a result `x` of exact arithmetic
becomes: `x` reduced modulo `2 ^ bits` into the range from `-2 ^ (bits - 1)` to
`2 ^ (bits - 1) - 1`. -/
def wrap (bits : Nat) (x : Int) : Int :=
  (x + 2 ^ (bits - 1)) % 2 ^ bits - 2 ^ (bits - 1)

/-- The values of the signed type of `bits` bits. -/
abbrev is_coord (bits : Nat) (x : Int) : Prop :=
  -(2 ^ (bits - 1)) ≤ x ∧ x < 2 ^ (bits - 1)

/-- The function `snap_to_grid (c, g)` of `dbRegionUtils.h` for a type `C` of `bits` bits:
the same two branches as `snap_to_grid`, the result of every negation, subtraction,
addition, division and multiplication wrapped to the type. -/
def snap_to_grid_fixed (bits : Nat) (c g : Int) : Int :=
  if c < 0 then
    wrap bits (wrap bits (-g) *
      wrap bits (Int.tdiv
        (wrap bits (wrap bits (-c) + wrap bits (Int.tdiv (wrap bits (g - 1)) 2))) g))
  else
    wrap bits (g * wrap bits (Int.tdiv (wrap bits (c + wrap bits (Int.tdiv g 2))) g))

/-- The inputs on which `snap_to_grid (c, g)` meets no overflow for a type of `bits` bits:
`c` and `g` are values of the type, and so is the sum which the branch taken forms,
`-c + (g - 1) / 2` for a negative `c` and `c + g / 2` otherwise. -/
abbrev snap_to_grid_fits (bits : Nat) (c g : Int) : Prop :=
  is_coord bits c ∧ is_coord bits g ∧
    (c < 0 → -c + (g - 1) / 2 < 2 ^ (bits - 1)) ∧ (0 ≤ c → c + g / 2 < 2 ^ (bits - 1))

/-- The value `v` which `RegionBBoxFilter::selected` computes from the bounding box, for a
`value_type` of `bits` bits: the if-chain of `RegionBBoxFilter.value` with the sum of
`BoxAverageDim` reduced modulo `2 ^ bits`, the overflow of the unsigned type. -/
def RegionBBoxFilter.value_fixed (bits : Nat) (K : GeometryKernel) (f : RegionBBoxFilter)
    (poly : Polygon) : Nat :=
  let box := K.box poly
  if f.m_parameter = BoxWidth then
    K.width box
  else if f.m_parameter = BoxHeight then
    K.height box
  else if f.m_parameter = BoxMinDim then
    min (K.width box) (K.height box)
  else if f.m_parameter = BoxMaxDim then
    max (K.width box) (K.height box)
  else if f.m_parameter = BoxAverageDim then
    (K.width box + K.height box) % 2 ^ bits / 2
  else
    0

/-- The function `RegionBBoxFilter::selected` for a `value_type` of `bits` bits. -/
def RegionBBoxFilter.selected_fixed (bits : Nat) (K : GeometryKernel) (f : RegionBBoxFilter)
    (poly : Polygon) : Bool :=
  let v := RegionBBoxFilter.value_fixed bits K f poly
  if !f.m_inverse then
    decide (v ≥ f.m_vmin) && decide (v < f.m_vmax)
  else
    !(decide (v ≥ f.m_vmin) && decide (v < f.m_vmax))

/-- The square of side 3000000000 centred at the origin; its corners are 32-bit
coordinates. -/
def square3e9 : Polygon :=
  Polygon.ofBox ⟨⟨-1500000000, -1500000000⟩, ⟨1500000000, 1500000000⟩⟩

/-! ## Grid snapping: auxiliary facts -/

theorem snap_to_grid_of_nonneg (c g : Int) (hg : 0 < g) (hc : 0 ≤ c) :
    snap_to_grid c g = g * ((c + g / 2) / g) := by
  have h2 : Int.tdiv g 2 = g / 2 := Int.tdiv_eq_ediv (by omega) (by omega)
  have h3 : Int.tdiv (c + g / 2) g = (c + g / 2) / g :=
    Int.tdiv_eq_ediv (by omega) (by omega)
  unfold snap_to_grid
  rw [if_neg (by omega), h2, h3]

theorem snap_to_grid_of_neg (c g : Int) (hg : 0 < g) (hc : c < 0) :
    snap_to_grid c g = -(g * ((-c + (g - 1) / 2) / g)) := by
  have h2 : Int.tdiv (g - 1) 2 = (g - 1) / 2 := Int.tdiv_eq_ediv (by omega) (by omega)
  have h3 : Int.tdiv (-c + (g - 1) / 2) g = (-c + (g - 1) / 2) / g :=
    Int.tdiv_eq_ediv (by omega) (by omega)
  unfold snap_to_grid
  rw [if_pos hc, h2, h3, Int.neg_mul]

/-- The quotient and the remainder of a division by a positive number. -/
theorem ediv_rem_form (a g : Int) (hg : 0 < g) :
    ∃ t : Int, 0 ≤ t ∧ t < g ∧ g * (a / g) + t = a :=
  ⟨a % g, Int.emod_nonneg a (by omega), Int.emod_lt_of_pos a hg, Int.ediv_add_emod a g⟩

/-- A quotient is determined by a remainder in range. -/
theorem ediv_eq_of_rem (a g q t : Int) (hg : 0 < g) (h0 : 0 ≤ t) (h1 : t < g)
    (h : g * q + t = a) : a / g = q := by
  have := (@Int.ediv_emod_unique a g t q hg).2 ⟨by omega, h0, h1⟩
  exact this.1

/-- The result of snapping is the grid times an integer. -/
theorem snap_to_grid_eq_mul (c g : Int) : ∃ m : Int, snap_to_grid c g = g * m := by
  unfold snap_to_grid
  split
  · exact ⟨-(Int.tdiv (-c + Int.tdiv (g - 1) 2) g), by rw [Int.neg_mul, Int.mul_neg]⟩
  · exact ⟨_, rfl⟩

/-- A value half a grid above a multiple of an even grid snaps to the next multiple. -/
theorem snap_to_grid_half (g k : Int) (hg : 0 < g) (he : g % 2 = 0) :
    snap_to_grid (k * g + g / 2) g = (k + 1) * g := by
  rcases lt_or_le (k * g + g / 2) 0 with hx | hx
  · rw [snap_to_grid_of_neg _ g hg hx]
    have hq : (-(k * g + g / 2) + (g - 1) / 2) / g = -k - 1 := by
      apply ediv_eq_of_rem _ g (-k - 1) (g - 1) hg (by omega) (by omega)
      have e1 : g * (-k - 1) = -(k * g) - g := by ring
      rw [e1]; omega
    rw [hq]; ring
  · rw [snap_to_grid_of_nonneg _ g hg hx]
    have hq : (k * g + g / 2 + g / 2) / g = k + 1 := by
      apply ediv_eq_of_rem _ g (k + 1) 0 hg (by omega) hg
      have e1 : g * (k + 1) = k * g + g := by ring
      rw [e1]; omega
    rw [hq]; ring

/-- A remainder is determined by a decomposition with a remainder in range. -/
theorem emod_eq_of_rem (a g q t : Int) (hg : 0 < g) (h0 : 0 ≤ t) (h1 : t < g)
    (h : g * q + t = a) : a % g = t := by
  have := (@Int.ediv_emod_unique a g t q hg).2 ⟨by omega, h0, h1⟩
  exact this.2

/-- A value which is half a grid above a multiple of the grid, in terms of the quotient. -/
theorem half_grid_form (x g : Int) (hh : x % g = g / 2) : x = (x / g) * g + g / 2 := by
  have h := Int.ediv_add_emod x g
  rw [hh, Int.mul_comm] at h
  exact h.symm

/-- Snapping commutes with negation for a positive value off the half-grid positions. -/
theorem snap_to_grid_neg_of_pos (x g : Int) (hg : 0 < g) (hx : 0 < x)
    (hh : g % 2 = 0 → x % g ≠ g / 2) : snap_to_grid (-x) g = -snap_to_grid x g := by
  rw [snap_to_grid_of_neg (-x) g hg (by omega), snap_to_grid_of_nonneg x g hg (by omega),
    neg_neg]
  obtain ⟨t, h0, h1, h⟩ := ediv_rem_form (x + g / 2) g hg
  have hq : (x + (g - 1) / 2) / g = (x + g / 2) / g := by
    rcases Int.emod_two_eq_zero_or_one g with he | ho
    · have ht : t ≠ 0 := by
        intro h00
        apply hh he
        apply emod_eq_of_rem x g ((x + g / 2) / g - 1) (g / 2) hg (by omega) (by omega)
        have e1 : g * ((x + g / 2) / g - 1) = g * ((x + g / 2) / g) - g := by ring
        rw [e1]; omega
      apply ediv_eq_of_rem _ g _ (t - 1) hg (by omega) (by omega)
      omega
    · apply ediv_eq_of_rem _ g _ t hg h0 h1
      omega
  rw [hq]

/-! ## Grid snapping: the stated properties -/

/-- C2: for every integer `x` and every grid `g > 0` the snapped value
`snap_to_grid x g` is an exact multiple of `g`: its remainder modulo `g` is `0`. -/
theorem snap_to_grid_mod_grid (x g : Int) (hg : 0 < g) : snap_to_grid x g % g = 0 := by
  obtain ⟨m, hm⟩ := snap_to_grid_eq_mul x g
  have hg0 : g ≠ 0 := by omega
  rw [hm]
  exact Int.mul_emod_right g m

theorem snap_to_grid_mod_grid_witness : (0 : Int) < 10 ∧ snap_to_grid (-17) 10 % 10 = 0 :=
  ⟨by decide, snap_to_grid_mod_grid (-17) 10 (by decide)⟩

/-- In exact arithmetic: a value exactly half a grid unit above a multiple of an even grid
`g > 0` is snapped to the right/top neighbour, whatever its sign: if `x = k * g + g / 2` then
`snap_to_grid x g = x + g / 2 = (k + 1) * g`. -/
theorem snap_to_grid_half_right (x g k : Int) (hg : 0 < g) (he : g % 2 = 0)
    (hx : x = k * g + g / 2) :
    snap_to_grid x g = x + g / 2 ∧ x + g / 2 = (k + 1) * g := by
  have e1 : (k + 1) * g = k * g + g := by ring
  rw [hx, snap_to_grid_half g k hg he, e1]
  constructor <;> omega

/-- C5, as stated, fails: `-5` lies half a grid unit between the multiples `-10` and `0`
of the even grid `10` and is negative, and `snap_to_grid (-5) 10` is `0`, not
`-5 - 10 / 2 = -10`, in exact arithmetic and in a 32-bit coordinate type alike. -/
theorem snap_to_grid_neg_half_counterexample :
    (0 : Int) < 10 ∧ (10 : Int) % 2 = 0 ∧ (-5 : Int) < 0 ∧ (-5 : Int) % 10 = 10 / 2 ∧
      snap_to_grid (-5) 10 = 0 ∧ snap_to_grid (-5) 10 ≠ -5 - 10 / 2 ∧
      is_coord 32 (-5) ∧ is_coord 32 10 ∧
      snap_to_grid_fixed 32 (-5) 10 = 0 ∧ snap_to_grid_fixed 32 (-5) 10 ≠ -5 - 10 / 2 := by
  decide

/-- In exact arithmetic: for every even grid `g > 0` and every negative `x` exactly half a
grid unit between two multiples of `g`, `snap_to_grid x g = x + g / 2`: the value is rounded
towards zero, to the right/top neighbour, and not symmetrically to the positive case
(`snap_to_grid (-5) 10 = 0` while `snap_to_grid 5 10 = 10`). -/
theorem snap_to_grid_neg_half_toward_zero (x g : Int) (hg : 0 < g) (he : g % 2 = 0)
    (hx : x < 0) (hh : x % g = g / 2) :
    snap_to_grid x g = x + g / 2 ∧ x < snap_to_grid x g ∧ snap_to_grid x g ≤ 0 ∧
      snap_to_grid (-5) 10 = 0 ∧ snap_to_grid 5 10 = 10 := by
  have hf := half_grid_form x g hh
  have hs := snap_to_grid_half g (x / g) hg he
  rw [← hf] at hs
  have e1 : (x / g + 1) * g = x / g * g + g := by ring
  refine ⟨by omega, by omega, ?_, by decide, by decide⟩
  have hq : x / g < 0 := Int.ediv_neg' hx hg
  have : (x / g + 1) * g ≤ 0 := by nlinarith
  omega

/-- In exact arithmetic: for every grid `g > 0` and every integer `x` which is not at a
half-grid position (`x % g ≠ g / 2` when `g` is even, no restriction when `g` is odd), snapping
commutes with negation: `snap_to_grid (-x) g = -snap_to_grid x g`.  Here `x % g` is the
remainder in the range from `0` to `g - 1`, also for a negative `x`. -/
theorem snap_to_grid_neg (x g : Int) (hg : 0 < g) (hh : g % 2 = 0 → x % g ≠ g / 2) :
    snap_to_grid (-x) g = -snap_to_grid x g := by
  rcases lt_trichotomy x 0 with hx | hx | hx
  · have h := snap_to_grid_neg_of_pos (-x) g hg (by omega) (fun he hn => hh he (by
      have hf := half_grid_form (-x) g hn
      apply emod_eq_of_rem x g (-((-x) / g) - 1) (g / 2) hg (by omega) (by omega)
      have e1 : g * (-((-x) / g) - 1) = -((-x) / g * g) - g := by ring
      rw [e1]; omega))
    rw [neg_neg] at h
    rw [h, neg_neg]
  · subst hx
    have h0 : snap_to_grid 0 g = 0 := by
      rw [snap_to_grid_of_nonneg 0 g hg (le_refl 0)]
      have : (0 + g / 2) / g = 0 :=
        ediv_eq_of_rem _ g 0 (g / 2) hg (by omega) (by omega) (by omega)
      rw [this, Int.mul_zero]
    rw [neg_zero, h0, neg_zero]
  · exact snap_to_grid_neg_of_pos x g hg hx hh

/-! ## Polygon filters: auxiliary facts -/

/-- The early exit of the perimeter loop: either the loop has summed up all the edges,
or it stopped at a sum which has reached the upper bound, and then the sum of all the
edges has reached it too. -/
theorem RegionPerimeterFilter.accumulate_cases (K : GeometryKernel) (pmax : Nat)
    (es : List Edge) (p : Nat) :
    RegionPerimeterFilter.accumulate K pmax es p = p + (es.map K.length).sum ∨
      (pmax ≤ RegionPerimeterFilter.accumulate K pmax es p ∧
        pmax ≤ p + (es.map K.length).sum) := by
  induction es generalizing p with
  | nil => left; simp [RegionPerimeterFilter.accumulate]
  | cons e es ih =>
    by_cases hp : p < pmax
    · have h := ih (p + K.length e)
      simp only [RegionPerimeterFilter.accumulate, if_pos hp, List.map_cons, List.sum_cons]
      omega
    · right
      simp only [RegionPerimeterFilter.accumulate, if_neg hp, List.map_cons, List.sum_cons]
      omega

/-- The bounding box of the polygon made from a box with ordered corners is that box. -/
theorem Polygon.box_ofBox (b : Box) (hx : b.p1.x ≤ b.p2.x) (hy : b.p1.y ≤ b.p2.y) :
    (Polygon.ofBox b).box = b := by
  obtain ⟨⟨l, bt⟩, ⟨r, t⟩⟩ := b
  simp only at hx hy
  simp [Polygon.box, Polygon.ofBox, hx, hy]

/-! ## Polygon filters: the stated properties -/

/-- C1: for every polygon and all `pmin`, `pmax` the filter
`RegionPerimeterFilter (pmin, pmax, false)` selects the polygon if and only if
`pmin ≤ P < pmax` for the full perimeter `P`, the sum of the lengths of all edges: leaving
the loop as soon as the running sum reaches `pmax` does not change the decision.  The
square of side 10 has perimeter 40 and is selected for the bounds 30 and 50. -/
theorem RegionPerimeterFilter.selected_iff_perimeter :
    (∀ (K : GeometryKernel) (pmin pmax : Nat) (poly : Polygon),
      RegionPerimeterFilter.selected K ⟨pmin, pmax, false⟩ poly = true ↔
        pmin ≤ perimeter K poly ∧ perimeter K poly < pmax) ∧
    perimeter specKernel square10 = 40 ∧
    RegionPerimeterFilter.selected specKernel ⟨30, 50, false⟩ square10 = true := by
  refine ⟨fun K pmin pmax poly => ?_, by decide, by decide⟩
  have h := RegionPerimeterFilter.accumulate_cases K pmax (K.edges poly) 0
  simp only [RegionPerimeterFilter.selected, perimeter, Bool.not_false, if_true,
    Bool.and_eq_true, decide_eq_true_eq, ge_iff_le]
  omega

/-- C7: for every polygon with area `A` and all `amin`, `amax`, `inverse` the filter
`RegionAreaFilter (amin, amax, inverse)` gives `(amin ≤ A < amax) XOR inverse`; a polygon
of area zero is selected by the non-inverse filter if and only if `amin ≤ 0 < amax`.
The 10 x 10 square has area 100 and is selected for the bounds 50 and 150. -/
theorem RegionAreaFilter.selected_eq_xor :
    (∀ (K : GeometryKernel) (amin amax : Int) (inverse : Bool) (poly : Polygon),
      RegionAreaFilter.selected K ⟨amin, amax, inverse⟩ poly =
        xor (decide (amin ≤ K.area poly ∧ K.area poly < amax)) inverse) ∧
    (∀ (K : GeometryKernel) (amin amax : Int) (poly : Polygon), K.area poly = 0 →
      (RegionAreaFilter.selected K ⟨amin, amax, false⟩ poly = true ↔ amin ≤ 0 ∧ 0 < amax)) ∧
    specKernel.area square10 = 100 ∧
    RegionAreaFilter.selected specKernel ⟨50, 150, false⟩ square10 = true := by
  refine ⟨fun K amin amax inverse poly => ?_, fun K amin amax poly h0 => ?_,
    by decide, by decide⟩
  · cases inverse <;> simp [RegionAreaFilter.selected, Bool.decide_and]
  · simp [RegionAreaFilter.selected, h0]

theorem RegionAreaFilter.selected_eq_xor_witness :
    specKernel.area ⟨[⟨0, 0⟩, ⟨5, 0⟩], []⟩ = 0 ∧
      (RegionAreaFilter.selected specKernel ⟨-1, 1, false⟩ ⟨[⟨0, 0⟩, ⟨5, 0⟩], []⟩ = true ↔
        (-1 : Int) ≤ 0 ∧ (0 : Int) < 1) :=
  ⟨by decide,
    RegionAreaFilter.selected_eq_xor.2.1 specKernel (-1) 1 ⟨[⟨0, 0⟩, ⟨5, 0⟩], []⟩ (by decide)⟩

/-- In exact arithmetic: for every polygon whose bounding box has width `w` and height `h`,
the non-inverse filter `RegionBBoxFilter (vmin, vmax, false, param)` selects the polygon if
and only if `vmin ≤ v < vmax`, with `v = w` for `BoxWidth`, `h` for `BoxHeight`,
`max w h` for `BoxMaxDim`, `min w h` for `BoxMinDim` and `(w + h) / 2` rounded down for
`BoxAverageDim`.  The 4 x 10 rectangle with the bounds 3 and 5 is selected for
`BoxWidth` and not selected for `BoxHeight`. -/
theorem RegionBBoxFilter.selected_iff_metric :
    (∀ (K : GeometryKernel) (vmin vmax : Nat) (poly : Polygon),
      (RegionBBoxFilter.selected K ⟨vmin, vmax, false, BoxWidth⟩ poly = true ↔
        vmin ≤ K.width (K.box poly) ∧ K.width (K.box poly) < vmax) ∧
      (RegionBBoxFilter.selected K ⟨vmin, vmax, false, BoxHeight⟩ poly = true ↔
        vmin ≤ K.height (K.box poly) ∧ K.height (K.box poly) < vmax) ∧
      (RegionBBoxFilter.selected K ⟨vmin, vmax, false, BoxMaxDim⟩ poly = true ↔
        vmin ≤ max (K.width (K.box poly)) (K.height (K.box poly)) ∧
          max (K.width (K.box poly)) (K.height (K.box poly)) < vmax) ∧
      (RegionBBoxFilter.selected K ⟨vmin, vmax, false, BoxMinDim⟩ poly = true ↔
        vmin ≤ min (K.width (K.box poly)) (K.height (K.box poly)) ∧
          min (K.width (K.box poly)) (K.height (K.box poly)) < vmax) ∧
      (RegionBBoxFilter.selected K ⟨vmin, vmax, false, BoxAverageDim⟩ poly = true ↔
        vmin ≤ (K.width (K.box poly) + K.height (K.box poly)) / 2 ∧
          (K.width (K.box poly) + K.height (K.box poly)) / 2 < vmax)) ∧
    specKernel.width (specKernel.box rect4x10) = 4 ∧
    specKernel.height (specKernel.box rect4x10) = 10 ∧
    RegionBBoxFilter.selected specKernel ⟨3, 5, false, BoxWidth⟩ rect4x10 = true ∧
    RegionBBoxFilter.selected specKernel ⟨3, 5, false, BoxHeight⟩ rect4x10 = false := by
  refine ⟨fun K vmin vmax poly => ?_, by decide, by decide, by decide, by decide⟩
  simp [RegionBBoxFilter.selected, RegionBBoxFilter.value]

/-- C9: each of the five polygon filters, built with `inverse = true`, selects a polygon
exactly when the same filter built with `inverse = false` does not, for every polygon and
every choice of the other parameters.  `RegionPerimeterFilter (30, 50, true)` does not
select the square of side 10. -/
theorem selected_inverse_eq_not :
    (∀ (K : GeometryKernel) (pmin pmax : Nat) (poly : Polygon),
      RegionPerimeterFilter.selected K ⟨pmin, pmax, true⟩ poly =
        !RegionPerimeterFilter.selected K ⟨pmin, pmax, false⟩ poly) ∧
    (∀ (K : GeometryKernel) (amin amax : Int) (poly : Polygon),
      RegionAreaFilter.selected K ⟨amin, amax, true⟩ poly =
        !RegionAreaFilter.selected K ⟨amin, amax, false⟩ poly) ∧
    (∀ (K : GeometryKernel) (vmin vmax : Nat) (param : parameter_type) (poly : Polygon),
      RegionBBoxFilter.selected K ⟨vmin, vmax, true, param⟩ poly =
        !RegionBBoxFilter.selected K ⟨vmin, vmax, false, param⟩ poly) ∧
    (∀ (K : GeometryKernel) (poly : Polygon),
      RectilinearFilter.selected K ⟨true⟩ poly = !RectilinearFilter.selected K ⟨false⟩ poly) ∧
    (∀ (K : GeometryKernel) (poly : Polygon),
      RectangleFilter.selected K ⟨true⟩ poly = !RectangleFilter.selected K ⟨false⟩ poly) ∧
    RegionPerimeterFilter.selected specKernel ⟨30, 50, true⟩ square10 = false := by
  refine ⟨fun K pmin pmax poly => ?_, fun K amin amax poly => ?_,
    fun K vmin vmax param poly => ?_, fun K poly => ?_, fun K poly => ?_, by decide⟩
  · simp [RegionPerimeterFilter.selected]
  · simp [RegionAreaFilter.selected]
  · simp [RegionBBoxFilter.selected, RegionBBoxFilter.value]
  · simp [RectilinearFilter.selected]
  · simp [RectangleFilter.selected]

/-- C10: `RectangleFilter (false)` selects a polygon if and only if the polygon is a box,
that is, equal to the polygon of its own bounding box: every axis-aligned box polygon
is selected and every triangle is not. -/
theorem RectangleFilter.selected_iff_box :
    (∀ (K : GeometryKernel) (poly : Polygon),
      RectangleFilter.selected K ⟨false⟩ poly = K.is_box poly) ∧
    (∀ poly : Polygon, RectangleFilter.selected specKernel ⟨false⟩ poly = true ↔
      poly = Polygon.ofBox poly.box) ∧
    (∀ b : Box, b.p1.x ≤ b.p2.x → b.p1.y ≤ b.p2.y →
      RectangleFilter.selected specKernel ⟨false⟩ (Polygon.ofBox b) = true) ∧
    (∀ (a b c : Point) (holes : List (List Point)),
      RectangleFilter.selected specKernel ⟨false⟩ ⟨[a, b, c], holes⟩ = false) := by
  refine ⟨fun K poly => ?_, fun poly => ?_, fun b hx hy => ?_, fun a b c holes => ?_⟩
  · simp [RectangleFilter.selected]
  · simp [RectangleFilter.selected, specKernel, Polygon.is_box]
  · simp [RectangleFilter.selected, specKernel, Polygon.is_box, Polygon.box_ofBox b hx hy]
  · simp [RectangleFilter.selected, specKernel, Polygon.is_box, Polygon.ofBox]

theorem RectangleFilter.selected_iff_box_witness :
    (0 : Int) ≤ 10 ∧ (0 : Int) ≤ 10 ∧
      RectangleFilter.selected specKernel ⟨false⟩ (Polygon.ofBox ⟨⟨0, 0⟩, ⟨10, 10⟩⟩) = true :=
  ⟨by decide, by decide,
    RectangleFilter.selected_iff_box.2.2.1 ⟨⟨0, 0⟩, ⟨10, 10⟩⟩ (by decide) (by decide)⟩

/-! ## Declared properties and further facts on grid snapping -/

/-- A multiple of the grid is a fixed point of snapping. -/
theorem snap_to_grid_mul_self (g k : Int) (hg : 0 < g) : snap_to_grid (k * g) g = k * g := by
  rcases lt_or_le (k * g) 0 with hx | hx
  · rw [snap_to_grid_of_neg _ g hg hx]
    have hq : (-(k * g) + (g - 1) / 2) / g = -k := by
      apply ediv_eq_of_rem _ g (-k) ((g - 1) / 2) hg (by omega) (by omega)
      have e1 : g * -k = -(k * g) := by ring
      rw [e1]
    rw [hq]; ring
  · rw [snap_to_grid_of_nonneg _ g hg hx]
    have hq : (k * g + g / 2) / g = k := by
      apply ediv_eq_of_rem _ g k (g / 2) hg (by omega) (by omega)
      have e1 : g * k = k * g := by ring
      rw [e1]
    rw [hq]; ring

/-- C11: `RegionBBoxFilter::vars` reports the magnification-and-orientation reducer if and
only if the parameter is `BoxWidth` or `BoxHeight`, the magnification reducer for
`BoxMaxDim`, `BoxMinDim` and `BoxAverageDim`, and never a null pointer. -/
theorem RegionBBoxFilter.vars_by_parameter :
    (∀ f : RegionBBoxFilter,
      f.vars = some TransformationReducer.MagnificationAndOrientationReducer ↔
        f.m_parameter = BoxWidth ∨ f.m_parameter = BoxHeight) ∧
    (∀ (vmin vmax : Nat) (inverse : Bool),
      RegionBBoxFilter.vars ⟨vmin, vmax, inverse, BoxMaxDim⟩ =
          some TransformationReducer.MagnificationReducer ∧
        RegionBBoxFilter.vars ⟨vmin, vmax, inverse, BoxMinDim⟩ =
          some TransformationReducer.MagnificationReducer ∧
        RegionBBoxFilter.vars ⟨vmin, vmax, inverse, BoxAverageDim⟩ =
          some TransformationReducer.MagnificationReducer) ∧
    (∀ f : RegionBBoxFilter, f.vars ≠ none) := by
  refine ⟨fun f => ?_, fun vmin vmax inverse => ?_, fun f => ?_⟩
  · unfold RegionBBoxFilter.vars
    by_cases h : f.m_parameter ≠ BoxWidth ∧ f.m_parameter ≠ BoxHeight
    · rw [if_pos h]
      constructor
      · intro h1; cases h1
      · rintro (h1 | h1)
        · exact absurd h1 h.1
        · exact absurd h1 h.2
    · rw [if_neg h]
      constructor
      · intro _
        by_cases hw : f.m_parameter = BoxWidth
        · exact Or.inl hw
        · by_cases hh : f.m_parameter = BoxHeight
          · exact Or.inr hh
          · exact absurd ⟨hw, hh⟩ h
      · intro _; rfl
  · exact ⟨rfl, rfl, rfl⟩
  · unfold RegionBBoxFilter.vars
    split <;> simp

/-- In exact arithmetic: every multiple of the grid is a fixed point of snapping: for `g > 0`
and every `k`, `snap_to_grid (k * g) g = k * g`; in particular `snap_to_grid 0 g = 0` and
`snap_to_grid x 1 = x` for every `x`; and snapping is idempotent. -/
theorem snap_to_grid_fixed_point (g : Int) (hg : 0 < g) :
    (∀ k : Int, snap_to_grid (k * g) g = k * g) ∧
    snap_to_grid 0 g = 0 ∧
    (∀ x : Int, snap_to_grid x 1 = x) ∧
    (∀ x : Int, snap_to_grid (snap_to_grid x g) g = snap_to_grid x g) := by
  refine ⟨fun k => snap_to_grid_mul_self g k hg, ?_, fun x => ?_, fun x => ?_⟩
  · have h := snap_to_grid_mul_self g 0 hg
    rw [Int.zero_mul] at h
    exact h
  · have h := snap_to_grid_mul_self 1 x (by decide)
    rw [Int.mul_one] at h
    exact h
  · obtain ⟨m, hm⟩ := snap_to_grid_eq_mul x g
    have h := snap_to_grid_mul_self g m hg
    rw [Int.mul_comm] at h
    rw [hm, h]

/-- C14: `snap_to_grid (c, g)` reaches a division by zero if and only if `g = 0`: for
`g = 0` every `c`, negative or not, reaches it, and for `g ≠ 0` no division by zero is
reached and the value of `snap_to_grid` is returned. -/
theorem snap_to_grid_checked_fails_iff :
    (∀ c : Int, snap_to_grid_checked c 0 = none) ∧
    (∀ c g : Int, snap_to_grid_checked c g = none ↔ g = 0) ∧
    (∀ c g : Int, g ≠ 0 → snap_to_grid_checked c g = some (snap_to_grid c g)) := by
  have h2 : ∀ a : Int, checked_div a 2 = some (Int.tdiv a 2) := fun a => by
    simp [checked_div]
  have hz : ∀ c : Int, snap_to_grid_checked c 0 = none := fun c => by
    unfold snap_to_grid_checked
    split <;> simp [h2, checked_div]
  have hn : ∀ c g : Int, g ≠ 0 → snap_to_grid_checked c g = some (snap_to_grid c g) :=
    fun c g hg => by
      unfold snap_to_grid_checked snap_to_grid
      split <;> simp [h2, checked_div, hg]
  refine ⟨hz, fun c g => ⟨fun h => ?_, fun h => ?_⟩, hn⟩
  · by_contra hg
    rw [hn c g hg] at h
    cases h
  · rw [h]; exact hz c

theorem snap_to_grid_checked_fails_iff_witness :
    (10 : Int) ≠ 0 ∧ snap_to_grid_checked (-17) 10 = some (snap_to_grid (-17) 10) :=
  ⟨by decide, snap_to_grid_checked_fails_iff.2.2 (-17) 10 (by decide)⟩

/-- C20: among the polygon filters and polygon processors of the header,
`requires_raw_input ()` is true for `StrangePolygonCheckProcessor` and false for every other
one: the five filters, `SmoothingProcessor`, `RoundedCornersProcessor`,
`HolesExtractionProcessor` and `HullExtractionProcessor`. -/
theorem requires_raw_input_only_strange :
    (∀ p : StrangePolygonCheckProcessor, p.requires_raw_input = true) ∧
    (∀ f : RegionPerimeterFilter, f.requires_raw_input = false) ∧
    (∀ f : RegionAreaFilter, f.requires_raw_input = false) ∧
    (∀ f : RegionBBoxFilter, f.requires_raw_input = false) ∧
    (∀ f : RectilinearFilter, f.requires_raw_input = false) ∧
    (∀ f : RectangleFilter, f.requires_raw_input = false) ∧
    (∀ p : SmoothingProcessor, p.requires_raw_input = false) ∧
    (∀ (R : Type) (p : RoundedCornersProcessor R), p.requires_raw_input = false) ∧
    (∀ p : HolesExtractionProcessor, p.requires_raw_input = false) ∧
    (∀ p : HullExtractionProcessor, p.requires_raw_input = false) :=
  ⟨fun _ => rfl, fun _ => rfl, fun _ => rfl, fun _ => rfl, fun _ => rfl, fun _ => rfl,
    fun _ => rfl, fun _ _ => rfl, fun _ => rfl, fun _ => rfl⟩

/-! ## Edge-to-edge checks: the stated properties -/

/-- C15: `put_negative` routes by the layer index and touches nothing else, in
`edge2edge_check_with_negative_output` and in `edge2edge_check_negative`: for layer 0 the
edge is inserted into the layer-1 negative output only, for layer 1 into the layer-2
negative output only, for every other layer value the object is unchanged; the edge pair
output is never changed. -/
theorem put_negative_routes_by_layer :
    (∀ (Output NegativeEdgeOutput : Type)
        (insert : NegativeEdgeOutput → Edge → NegativeEdgeOutput)
        (c : edge2edge_check_with_negative_output Output NegativeEdgeOutput) (edge : Edge),
      c.put_negative insert edge 0 =
          { c with mp_l1_negative_output := insert c.mp_l1_negative_output edge } ∧
        c.put_negative insert edge 1 =
          { c with mp_l2_negative_output := insert c.mp_l2_negative_output edge } ∧
        (∀ layer : Int, layer ≠ 0 → layer ≠ 1 → c.put_negative insert edge layer = c) ∧
        (∀ layer : Int, (c.put_negative insert edge layer).mp_output = c.mp_output)) ∧
    (∀ (NegativeEdgeOutput : Type)
        (insert : NegativeEdgeOutput → Edge → NegativeEdgeOutput)
        (c : edge2edge_check_negative NegativeEdgeOutput) (edge : Edge),
      c.put_negative insert edge 0 =
          { c with mp_l1_negative_output := insert c.mp_l1_negative_output edge } ∧
        c.put_negative insert edge 1 =
          { c with mp_l2_negative_output := insert c.mp_l2_negative_output edge } ∧
        (∀ layer : Int, layer ≠ 0 → layer ≠ 1 → c.put_negative insert edge layer = c)) := by
  refine ⟨fun Output NegativeEdgeOutput insert c edge => ⟨?_, ?_, fun layer h0 h1 => ?_,
    fun layer => ?_⟩, fun NegativeEdgeOutput insert c edge => ⟨?_, ?_, fun layer h0 h1 => ?_⟩⟩
  · simp [edge2edge_check_with_negative_output.put_negative]
  · simp [edge2edge_check_with_negative_output.put_negative]
  · simp [edge2edge_check_with_negative_output.put_negative, h0, h1]
  · unfold edge2edge_check_with_negative_output.put_negative
    by_cases h0 : layer = 0 <;> by_cases h1 : layer = 1 <;> simp [h0, h1]
  · simp [edge2edge_check_negative.put_negative]
  · simp [edge2edge_check_negative.put_negative]
  · simp [edge2edge_check_negative.put_negative, h0, h1]

theorem put_negative_routes_by_layer_witness :
    (2 : Int) ≠ 0 ∧ (2 : Int) ≠ 1 ∧
      edge2edge_check_negative.put_negative list_insert
          ⟨Edge2EdgeCheckBase.init (distance_less_than horizontal_distance 6) false false false,
            [], []⟩ lower_edge 2 =
        ⟨Edge2EdgeCheckBase.init (distance_less_than horizontal_distance 6) false false false,
          [], []⟩ :=
  ⟨by decide, by decide,
    (put_negative_routes_by_layer.2 (List Edge) list_insert
      ⟨Edge2EdgeCheckBase.init (distance_less_than horizontal_distance 6) false false false,
        [], []⟩ lower_edge).2.2 2 (by decide) (by decide)⟩

/-- The add step leaves the inverse flag and the seen-set as they are. -/
theorem region_to_edge_interaction_filter_base.add_frame {P S : Type} [DecidableEq P]
    (interacts : P → S → Bool) (s : region_to_edge_interaction_filter_base P) (p : P) (e : S) :
    (s.add interacts p e).m_inverse = s.m_inverse ∧
      (s.add interacts p e).m_seen = s.m_seen := by
  unfold region_to_edge_interaction_filter_base.add
  split
  · split <;> exact ⟨rfl, rfl⟩
  · exact ⟨rfl, rfl⟩

/-- The record of the interacting primaries after one add step. -/
theorem region_to_edge_interaction_filter_base.mem_add {P S : Type} [DecidableEq P]
    (interacts : P → S → Bool) (s : region_to_edge_interaction_filter_base P) (p : P) (e : S)
    (q : P) :
    q ∈ (s.add interacts p e).m_interacting ↔
      q ∈ s.m_interacting ∨ (q = p ∧ interacts p e = true) := by
  unfold region_to_edge_interaction_filter_base.add
  by_cases hi : interacts p e = true
  · by_cases hp : p ∈ s.m_interacting
    · simp only [hi, hp, if_true, and_true]
      constructor
      · exact Or.inl
      · rintro (h | h)
        · exact h
        · rw [h]; exact hp
    · simp only [hi, hp, if_true, if_false, and_true, List.mem_cons]
      exact or_comm
  · simp [hi]

/-- The record of the interacting primaries after the add steps for a list of pairs. -/
theorem region_to_edge_interaction_filter_base.mem_foldl_add {P S : Type} [DecidableEq P]
    (interacts : P → S → Bool) (pairs : List (P × S))
    (s : region_to_edge_interaction_filter_base P) (q : P) :
    q ∈ (pairs.foldl
        (fun s pe => region_to_edge_interaction_filter_base.add interacts s pe.1 pe.2)
        s).m_interacting ↔
      q ∈ s.m_interacting ∨ ∃ e, (q, e) ∈ pairs ∧ interacts q e = true := by
  induction pairs generalizing s with
  | nil => simp
  | cons pe rest ih =>
    rw [List.foldl_cons, ih, region_to_edge_interaction_filter_base.mem_add]
    constructor
    · rintro ((h | ⟨h1, h2⟩) | ⟨e, h1, h2⟩)
      · exact Or.inl h
      · refine Or.inr ⟨pe.2, ?_, ?_⟩
        · rw [h1]; exact List.mem_cons_self _ _
        · rw [h1]; exact h2
      · exact Or.inr ⟨e, List.mem_cons_of_mem _ h1, h2⟩
    · rintro (h | ⟨e, h1, h2⟩)
      · exact Or.inl (Or.inl h)
      · rcases List.mem_cons.1 h1 with h3 | h3
        · refine Or.inl (Or.inr ⟨?_, ?_⟩)
          · rw [← h3]
          · rw [← h3]; exact h2
        · exact Or.inr ⟨e, h3, h2⟩

/-- The inverse flag and the seen-set after the add steps for a list of pairs. -/
theorem region_to_edge_interaction_filter_base.foldl_add_frame {P S : Type} [DecidableEq P]
    (interacts : P → S → Bool) (pairs : List (P × S))
    (s : region_to_edge_interaction_filter_base P) :
    (pairs.foldl
        (fun s pe => region_to_edge_interaction_filter_base.add interacts s pe.1 pe.2)
        s).m_inverse = s.m_inverse ∧
      (pairs.foldl
        (fun s pe => region_to_edge_interaction_filter_base.add interacts s pe.1 pe.2)
        s).m_seen = s.m_seen := by
  induction pairs generalizing s with
  | nil => exact ⟨rfl, rfl⟩
  | cons pe rest ih =>
    rw [List.foldl_cons]
    have h := region_to_edge_interaction_filter_base.add_frame interacts s pe.1 pe.2
    exact ⟨(ih _).1.trans h.1, (ih _).2.trans h.2⟩

/-- The objects put by the finish steps for a list of primaries: each at most once, and
exactly the primaries of the list which pass the decision and are not in the seen-set. -/
theorem region_to_edge_interaction_filter_base.finish_all_spec {P : Type} [DecidableEq P]
    (primaries : List P) (s : region_to_edge_interaction_filter_base P) :
    (s.finish_all primaries).2.Nodup ∧
      ∀ q : P, q ∈ (s.finish_all primaries).2 ↔
        q ∈ primaries ∧ s.decides q = true ∧ q ∉ s.m_seen := by
  induction primaries generalizing s with
  | nil => simp [region_to_edge_interaction_filter_base.finish_all]
  | cons p rest ih =>
    by_cases hc : (s.decides p && !decide (p ∈ s.m_seen)) = true
    · have hf : s.finish p = ({ s with m_seen := p :: s.m_seen }, [p]) := by
        simp only [region_to_edge_interaction_filter_base.finish, hc, if_true]
      obtain ⟨hn, hm⟩ := ih { s with m_seen := p :: s.m_seen }
      have hd : ∀ q : P, region_to_edge_interaction_filter_base.decides
          { s with m_seen := p :: s.m_seen } q = s.decides q := fun q => rfl
      simp only [Bool.and_eq_true, Bool.not_eq_true', decide_eq_false_iff_not] at hc
      simp only [region_to_edge_interaction_filter_base.finish_all, hf, List.singleton_append]
      constructor
      · refine List.nodup_cons.2 ⟨fun hp => ?_, hn⟩
        exact ((hm p).1 hp).2.2 (List.mem_cons_self _ _)
      · intro q
        rw [List.mem_cons, hm q, hd q]
        simp only [List.mem_cons, not_or]
        constructor
        · rintro (h | ⟨h1, h2, _, h4⟩)
          · rw [h]; exact ⟨Or.inl rfl, hc.1, hc.2⟩
          · exact ⟨Or.inr h1, h2, h4⟩
        · rintro ⟨h1 | h1, h2, h3⟩
          · exact Or.inl h1
          · by_cases hq : q = p
            · exact Or.inl hq
            · exact Or.inr ⟨h1, h2, hq, h3⟩
    · have hf : s.finish p = (s, []) := by
        simp only [region_to_edge_interaction_filter_base.finish, hc]
        rfl
      obtain ⟨hn, hm⟩ := ih s
      simp only [region_to_edge_interaction_filter_base.finish_all, hf, List.nil_append]
      refine ⟨hn, fun q => ?_⟩
      rw [hm q, List.mem_cons]
      constructor
      · rintro ⟨h1, h2, h3⟩
        exact ⟨Or.inr h1, h2, h3⟩
      · rintro ⟨h1 | h1, h2, h3⟩
        · exfalso
          apply hc
          rw [h1] at h2 h3
          simp [h2, h3]
        · exact ⟨h1, h2, h3⟩

/-- The objects put by a run of a newly constructed filter: each at most once, and exactly
the primaries for which (some reported pair interacts) XOR `inverse`. -/
theorem region_to_edge_interaction_filter_base.run_spec {P S : Type} [DecidableEq P]
    (interacts : P → S → Bool) (inverse : Bool) (primaries : List P) (pairs : List (P × S)) :
    ((region_to_edge_interaction_filter_base.init P inverse).run interacts primaries
        pairs).2.Nodup ∧
      ∀ p : P,
        p ∈ ((region_to_edge_interaction_filter_base.init P inverse).run interacts primaries
            pairs).2 ↔
          p ∈ primaries ∧
            (((∃ e, (p, e) ∈ pairs ∧ interacts p e = true) ∧ inverse = false) ∨
              ((¬ ∃ e, (p, e) ∈ pairs ∧ interacts p e = true) ∧ inverse = true)) := by
  unfold region_to_edge_interaction_filter_base.run
  have hs := region_to_edge_interaction_filter_base.finish_all_spec primaries
    (pairs.foldl
      (fun s pe => region_to_edge_interaction_filter_base.add interacts s pe.1 pe.2)
      (region_to_edge_interaction_filter_base.init P inverse))
  have hfr := region_to_edge_interaction_filter_base.foldl_add_frame interacts pairs
    (region_to_edge_interaction_filter_base.init P inverse)
  refine ⟨hs.1, fun p => ?_⟩
  have hm := region_to_edge_interaction_filter_base.mem_foldl_add interacts pairs
    (region_to_edge_interaction_filter_base.init P inverse) p
  have hi : (region_to_edge_interaction_filter_base.init P inverse).m_interacting = [] := rfl
  have hv : (region_to_edge_interaction_filter_base.init P inverse).m_inverse = inverse := rfl
  have hn : (region_to_edge_interaction_filter_base.init P inverse).m_seen = [] := rfl
  rw [hi] at hm
  simp only [List.not_mem_nil, false_or] at hm
  rw [hs.2 p, region_to_edge_interaction_filter_base.decides, hfr.1, hfr.2, hv, hn]
  by_cases hx : ∃ e, (p, e) ∈ pairs ∧ interacts p e = true
  · have hin := hm.2 hx
    cases inverse <;> simp [hin, hx]
  · have hin : p ∉ (pairs.foldl
        (fun s pe => region_to_edge_interaction_filter_base.add interacts s pe.1 pe.2)
        (region_to_edge_interaction_filter_base.init P inverse)).m_interacting :=
      fun h => hx (hm.1 h)
    cases inverse <;> simp [hin, hx]

/-- The container filled through `region_to_edge_interaction_filter::put` with the list
insertion holds the objects in the order of the calls. -/
theorem region_to_edge_interaction_filter.foldl_put {P : Type} (l : List P)
    (c : region_to_edge_interaction_filter P (List P)) :
    (l.foldl (region_to_edge_interaction_filter.put list_insert) c).mp_output =
      c.mp_output ++ l := by
  induction l generalizing c with
  | nil => simp
  | cons x rest ih =>
    rw [List.foldl_cons, ih]
    simp [region_to_edge_interaction_filter.put, list_insert]

/-- The container filled through `region_to_text_interaction_filter::put` with the list
insertion holds the objects in the order of the calls. -/
theorem region_to_text_interaction_filter.foldl_put_text {P : Type} (l : List P)
    (c : region_to_text_interaction_filter P (List P)) :
    (l.foldl (region_to_text_interaction_filter.put list_insert) c).mp_output =
      c.mp_output ++ l := by
  induction l generalizing c with
  | nil => simp
  | cons x rest ih =>
    rw [List.foldl_cons, ih]
    simp [region_to_text_interaction_filter.put, list_insert]

/-- The output of the filter for edges is the sequence of the objects put by the run. -/
theorem region_to_edge_interaction_filter.output_eq_run {P S : Type} [DecidableEq P]
    (interacts : P → S → Bool) (inverse : Bool) (primaries : List P) (pairs : List (P × S)) :
    region_to_edge_interaction_filter.output interacts inverse primaries pairs =
      ((region_to_edge_interaction_filter_base.init P inverse).run interacts primaries
        pairs).2 := by
  unfold region_to_edge_interaction_filter.output region_to_edge_interaction_filter.scan
  rw [region_to_edge_interaction_filter.foldl_put]
  simp [region_to_edge_interaction_filter.create]

/-- The output of the filter for texts is the sequence of the objects put by the run. -/
theorem region_to_text_interaction_filter.output_eq_run_text {P S : Type} [DecidableEq P]
    (interacts : P → S → Bool) (inverse : Bool) (primaries : List P) (pairs : List (P × S)) :
    region_to_text_interaction_filter.output interacts inverse primaries pairs =
      ((region_to_edge_interaction_filter_base.init P inverse).run interacts primaries
        pairs).2 := by
  unfold region_to_text_interaction_filter.output region_to_text_interaction_filter.scan
  rw [region_to_text_interaction_filter.foldl_put_text]
  simp [region_to_text_interaction_filter.create]

/-- C19: for the region-to-edge and the region-to-text interaction filter with
`get_all = false`, after all pairs have been added a primary is emitted through `put` if
and only if (it interacts with at least one secondary object) XOR `inverse`; each emitted
object is emitted at most once, also when the scanner finishes a primary more than once;
and the set of the emitted primaries does not depend on the order in which the scanner
reports the primaries and the pairs, so that a second run on the same inputs yields the
same set.  For the primaries 1, 1, 2, 3 and the pairs (1, 1), (2, 5), with equality as the
interaction test, the output is 1, and it is 2, 3 for the inverse filter. -/
theorem region_interaction_filter_emits :
    (∀ (P S : Type) [DecidableEq P] (interacts : P → S → Bool) (inverse : Bool)
      (primaries : List P) (pairs : List (P × S)),
      (∀ p : P,
        p ∈ region_to_edge_interaction_filter.output interacts inverse primaries pairs ↔
          p ∈ primaries ∧
            (((∃ e, (p, e) ∈ pairs ∧ interacts p e = true) ∧ inverse = false) ∨
              ((¬ ∃ e, (p, e) ∈ pairs ∧ interacts p e = true) ∧ inverse = true))) ∧
      (∀ p : P,
        p ∈ region_to_text_interaction_filter.output interacts inverse primaries pairs ↔
          p ∈ primaries ∧
            (((∃ e, (p, e) ∈ pairs ∧ interacts p e = true) ∧ inverse = false) ∨
              ((¬ ∃ e, (p, e) ∈ pairs ∧ interacts p e = true) ∧ inverse = true))) ∧
      (region_to_edge_interaction_filter.output interacts inverse primaries pairs).Nodup ∧
      (region_to_text_interaction_filter.output interacts inverse primaries pairs).Nodup ∧
      (∀ (primaries2 : List P) (pairs2 : List (P × S)),
        primaries2.Perm primaries → pairs2.Perm pairs → ∀ p : P,
          (p ∈ region_to_edge_interaction_filter.output interacts inverse primaries2 pairs2 ↔
            p ∈ region_to_edge_interaction_filter.output interacts inverse primaries pairs) ∧
          (p ∈ region_to_text_interaction_filter.output interacts inverse primaries2 pairs2 ↔
            p ∈ region_to_text_interaction_filter.output interacts inverse primaries pairs))) ∧
    region_to_edge_interaction_filter.output (fun p e : Nat => decide (p = e)) false
      [1, 1, 2, 3] [(1, 1), (2, 5)] = [1] ∧
    region_to_text_interaction_filter.output (fun p e : Nat => decide (p = e)) false
      [1, 1, 2, 3] [(1, 1), (2, 5)] = [1] ∧
    region_to_edge_interaction_filter.output (fun p e : Nat => decide (p = e)) true
      [1, 1, 2, 3] [(1, 1), (2, 5)] = [2, 3] ∧
    region_to_text_interaction_filter.output (fun p e : Nat => decide (p = e)) true
      [1, 1, 2, 3] [(1, 1), (2, 5)] = [2, 3] := by
  refine ⟨?_, by decide, by decide, by decide, by decide⟩
  intro P S _ interacts inverse primaries pairs
  have hr := region_to_edge_interaction_filter_base.run_spec interacts inverse primaries pairs
  have he := region_to_edge_interaction_filter.output_eq_run interacts inverse primaries pairs
  have ht := region_to_text_interaction_filter.output_eq_run_text interacts inverse primaries
    pairs
  refine ⟨fun p => ?_, fun p => ?_, ?_, ?_, fun primaries2 pairs2 h1 h2 p => ⟨?_, ?_⟩⟩
  · rw [he]; exact hr.2 p
  · rw [ht]; exact hr.2 p
  · rw [he]; exact hr.1
  · rw [ht]; exact hr.1
  · have hr2 := region_to_edge_interaction_filter_base.run_spec interacts inverse primaries2
      pairs2
    rw [he, region_to_edge_interaction_filter.output_eq_run, hr.2 p, hr2.2 p, h1.mem_iff]
    have hp : ∀ e, (p, e) ∈ pairs2 ↔ (p, e) ∈ pairs := fun e => h2.mem_iff
    simp only [hp]
  · have hr2 := region_to_edge_interaction_filter_base.run_spec interacts inverse primaries2
      pairs2
    rw [ht, region_to_text_interaction_filter.output_eq_run_text, hr.2 p, hr2.2 p, h1.mem_iff]
    have hp : ∀ e, (p, e) ∈ pairs2 ↔ (p, e) ∈ pairs := fun e => h2.mem_iff
    simp only [hp]

theorem region_interaction_filter_emits_witness :
    [3, 1, 2, 1].Perm [1, 1, 2, 3] ∧ [(2, 5), (1, 1)].Perm [(1, 1), (2, 5)] ∧
      ((1 ∈ region_to_edge_interaction_filter.output (fun p e : Nat => decide (p = e)) false
            [3, 1, 2, 1] [(2, 5), (1, 1)] ↔
          1 ∈ region_to_edge_interaction_filter.output (fun p e : Nat => decide (p = e)) false
            [1, 1, 2, 3] [(1, 1), (2, 5)]) ∧
        (1 ∈ region_to_text_interaction_filter.output (fun p e : Nat => decide (p = e)) false
            [3, 1, 2, 1] [(2, 5), (1, 1)] ↔
          1 ∈ region_to_text_interaction_filter.output (fun p e : Nat => decide (p = e)) false
            [1, 1, 2, 3] [(1, 1), (2, 5)])) :=
  ⟨by decide, by decide,
    (region_interaction_filter_emits.1 Nat Nat (fun p e : Nat => decide (p = e)) false
      [1, 1, 2, 3] [(1, 1), (2, 5)]).2.2.2.2 [3, 1, 2, 1] [(2, 5), (1, 1)] (by decide)
      (by decide) 1⟩

/-! ## Processors, rotation, range tiling, monotonicity -/

/-- The non-inverse perimeter filter in terms of the full perimeter. -/
theorem RegionPerimeterFilter.selected_plain_iff_perimeter (K : GeometryKernel) (pmin pmax : Nat)
    (poly : Polygon) :
    RegionPerimeterFilter.selected K ⟨pmin, pmax, false⟩ poly = true ↔
      pmin ≤ perimeter K poly ∧ perimeter K poly < pmax := by
  have h := RegionPerimeterFilter.accumulate_cases K pmax (K.edges poly) 0
  simp only [RegionPerimeterFilter.selected, perimeter, Bool.not_false, if_true,
    Bool.and_eq_true, decide_eq_true_eq, ge_iff_le]
  omega

/-- The non-inverse area filter in terms of the area. -/
theorem RegionAreaFilter.selected_plain_iff_area (K : GeometryKernel) (amin amax : Int)
    (poly : Polygon) :
    RegionAreaFilter.selected K ⟨amin, amax, false⟩ poly = true ↔
      amin ≤ K.area poly ∧ K.area poly < amax := by
  simp [RegionAreaFilter.selected]

/-- The non-inverse bounding box filter in terms of the value of its parameter. -/
theorem RegionBBoxFilter.selected_plain_iff_value (K : GeometryKernel) (vmin vmax : Nat)
    (param : parameter_type) (poly : Polygon) :
    RegionBBoxFilter.selected K ⟨vmin, vmax, false, param⟩ poly = true ↔
      vmin ≤ RegionBBoxFilter.value K ⟨vmin, vmax, false, param⟩ poly ∧
        RegionBBoxFilter.value K ⟨vmin, vmax, false, param⟩ poly < vmax := by
  simp [RegionBBoxFilter.selected]

/-- The value of the bounding box parameter does not depend on the bounds and on the
inverse flag. -/
theorem RegionBBoxFilter.value_congr (K : GeometryKernel) (f f2 : RegionBBoxFilter)
    (poly : Polygon) (h : f.m_parameter = f2.m_parameter) :
    RegionBBoxFilter.value K f poly = RegionBBoxFilter.value K f2 poly := by
  simp [RegionBBoxFilter.value, h]

/-- Snapping is monotone on the non-negative values. -/
theorem snap_to_grid_mono_nonneg (x y g : Int) (hg : 0 < g) (hx : 0 ≤ x) (hxy : x ≤ y) :
    snap_to_grid x g ≤ snap_to_grid y g := by
  rw [snap_to_grid_of_nonneg x g hg hx, snap_to_grid_of_nonneg y g hg (by omega)]
  have h : (x + g / 2) / g ≤ (y + g / 2) / g := Int.ediv_le_ediv hg (by omega)
  exact Int.mul_le_mul_of_nonneg_left h (by omega)

/-- Snapping is monotone on the negative values. -/
theorem snap_to_grid_mono_neg (x y g : Int) (hg : 0 < g) (hy : y < 0) (hxy : x ≤ y) :
    snap_to_grid x g ≤ snap_to_grid y g := by
  rw [snap_to_grid_of_neg x g hg (by omega), snap_to_grid_of_neg y g hg hy]
  have h : (-y + (g - 1) / 2) / g ≤ (-x + (g - 1) / 2) / g := Int.ediv_le_ediv hg (by omega)
  have h2 := Int.mul_le_mul_of_nonneg_left h (show (0 : Int) ≤ g by omega)
  omega

/-- C21: `result_is_merged ()` is false for `SmoothingProcessor` and
`StrangePolygonCheckProcessor` and true for `RoundedCornersProcessor`,
`HolesExtractionProcessor` and `HullExtractionProcessor`; the hole and the hull extraction
report no transformation reducer (`vars ()` is null), smoothing and corner rounding report
the magnification reducer. -/
theorem processors_result_is_merged_and_vars :
    (∀ p : SmoothingProcessor, p.result_is_merged = false) ∧
    (∀ p : StrangePolygonCheckProcessor, p.result_is_merged = false) ∧
    (∀ (R : Type) (p : RoundedCornersProcessor R), p.result_is_merged = true) ∧
    (∀ p : HolesExtractionProcessor, p.result_is_merged = true) ∧
    (∀ p : HullExtractionProcessor, p.result_is_merged = true) ∧
    (∀ p : HolesExtractionProcessor, p.vars = none) ∧
    (∀ p : HullExtractionProcessor, p.vars = none) ∧
    (∀ p : SmoothingProcessor, p.vars = some TransformationReducer.MagnificationReducer) ∧
    (∀ (R : Type) (p : RoundedCornersProcessor R),
      p.vars = some TransformationReducer.MagnificationReducer) :=
  ⟨fun _ => rfl, fun _ => rfl, fun _ _ => rfl, fun _ => rfl, fun _ => rfl, fun _ => rfl,
    fun _ => rfl, fun _ => rfl, fun _ _ => rfl⟩

/-- C22: for a polygon with a bounding box `w` x `h` and a polygon with the rotated
bounding box `h` x `w`, and for all bounds and inverse flags, the filter with `BoxMaxDim`,
`BoxMinDim` or `BoxAverageDim` gives the same result on both, and the `BoxWidth` filter on
the first gives the result of the `BoxHeight` filter on the second; `BoxWidth` is not
invariant under the rotation: with the bounds 3 and 5 it selects the 4 x 10 rectangle and
not the 10 x 4 rectangle. -/
theorem RegionBBoxFilter.selected_rotated :
    (∀ (K : GeometryKernel) (vmin vmax : Nat) (inverse : Bool) (poly rotated : Polygon),
      K.width (K.box rotated) = K.height (K.box poly) →
      K.height (K.box rotated) = K.width (K.box poly) →
        RegionBBoxFilter.selected K ⟨vmin, vmax, inverse, BoxMaxDim⟩ rotated =
          RegionBBoxFilter.selected K ⟨vmin, vmax, inverse, BoxMaxDim⟩ poly ∧
        RegionBBoxFilter.selected K ⟨vmin, vmax, inverse, BoxMinDim⟩ rotated =
          RegionBBoxFilter.selected K ⟨vmin, vmax, inverse, BoxMinDim⟩ poly ∧
        RegionBBoxFilter.selected K ⟨vmin, vmax, inverse, BoxAverageDim⟩ rotated =
          RegionBBoxFilter.selected K ⟨vmin, vmax, inverse, BoxAverageDim⟩ poly ∧
        RegionBBoxFilter.selected K ⟨vmin, vmax, inverse, BoxWidth⟩ poly =
          RegionBBoxFilter.selected K ⟨vmin, vmax, inverse, BoxHeight⟩ rotated) ∧
    RegionBBoxFilter.selected specKernel ⟨3, 5, false, BoxWidth⟩ rect4x10 = true ∧
    RegionBBoxFilter.selected specKernel ⟨3, 5, false, BoxWidth⟩ rect10x4 = false := by
  refine ⟨fun K vmin vmax inverse poly rotated hw hh => ?_, by decide, by decide⟩
  simp [RegionBBoxFilter.selected, RegionBBoxFilter.value, hw, hh, max_comm, min_comm,
    Nat.add_comm]

theorem RegionBBoxFilter.selected_rotated_witness :
    specKernel.width (specKernel.box rect10x4) = specKernel.height (specKernel.box rect4x10) ∧
      specKernel.height (specKernel.box rect10x4) =
        specKernel.width (specKernel.box rect4x10) ∧
      (RegionBBoxFilter.selected specKernel ⟨3, 11, false, BoxMaxDim⟩ rect10x4 =
          RegionBBoxFilter.selected specKernel ⟨3, 11, false, BoxMaxDim⟩ rect4x10 ∧
        RegionBBoxFilter.selected specKernel ⟨3, 11, false, BoxMinDim⟩ rect10x4 =
          RegionBBoxFilter.selected specKernel ⟨3, 11, false, BoxMinDim⟩ rect4x10 ∧
        RegionBBoxFilter.selected specKernel ⟨3, 11, false, BoxAverageDim⟩ rect10x4 =
          RegionBBoxFilter.selected specKernel ⟨3, 11, false, BoxAverageDim⟩ rect4x10 ∧
        RegionBBoxFilter.selected specKernel ⟨3, 11, false, BoxWidth⟩ rect4x10 =
          RegionBBoxFilter.selected specKernel ⟨3, 11, false, BoxHeight⟩ rect10x4) :=
  ⟨by decide, by decide,
    RegionBBoxFilter.selected_rotated.1 specKernel 3 11 false rect4x10 rect10x4
      (by decide) (by decide)⟩

/-- The polygon made from a box is rectilinear. -/
theorem Polygon.is_rectilinear_ofBox (b : Box) : (Polygon.ofBox b).is_rectilinear = true := by
  simp [Polygon.is_rectilinear, Polygon.edges, Polygon.ofBox, contourEdges]

/-- A polygon which is a box is rectilinear. -/
theorem Polygon.is_rectilinear_of_is_box (poly : Polygon) (h : poly.is_box = true) :
    poly.is_rectilinear = true := by
  have he : poly = Polygon.ofBox poly.box := by
    simpa [Polygon.is_box] using h
  have hr := Polygon.is_rectilinear_ofBox poly.box
  rw [← he] at hr
  exact hr

/-- C23: half-open ranges tile without gap and without overlap: for the non-inverse
perimeter filter, area filter and bounding box filter (with any fixed parameter), for every
polygon and all bounds `a ≤ b ≤ c`, the filter on `[a, c)` selects the polygon if and only
if the filter on `[a, b)` or the filter on `[b, c)` selects it, and the filters on `[a, b)`
and `[b, c)` never both select it. -/
theorem range_filters_tile :
    (∀ (K : GeometryKernel) (a b c : Nat) (poly : Polygon), a ≤ b → b ≤ c →
      (RegionPerimeterFilter.selected K ⟨a, c, false⟩ poly = true ↔
        RegionPerimeterFilter.selected K ⟨a, b, false⟩ poly = true ∨
          RegionPerimeterFilter.selected K ⟨b, c, false⟩ poly = true) ∧
      ¬ (RegionPerimeterFilter.selected K ⟨a, b, false⟩ poly = true ∧
          RegionPerimeterFilter.selected K ⟨b, c, false⟩ poly = true)) ∧
    (∀ (K : GeometryKernel) (a b c : Int) (poly : Polygon), a ≤ b → b ≤ c →
      (RegionAreaFilter.selected K ⟨a, c, false⟩ poly = true ↔
        RegionAreaFilter.selected K ⟨a, b, false⟩ poly = true ∨
          RegionAreaFilter.selected K ⟨b, c, false⟩ poly = true) ∧
      ¬ (RegionAreaFilter.selected K ⟨a, b, false⟩ poly = true ∧
          RegionAreaFilter.selected K ⟨b, c, false⟩ poly = true)) ∧
    (∀ (K : GeometryKernel) (param : parameter_type) (a b c : Nat) (poly : Polygon),
      a ≤ b → b ≤ c →
      (RegionBBoxFilter.selected K ⟨a, c, false, param⟩ poly = true ↔
        RegionBBoxFilter.selected K ⟨a, b, false, param⟩ poly = true ∨
          RegionBBoxFilter.selected K ⟨b, c, false, param⟩ poly = true) ∧
      ¬ (RegionBBoxFilter.selected K ⟨a, b, false, param⟩ poly = true ∧
          RegionBBoxFilter.selected K ⟨b, c, false, param⟩ poly = true)) := by
  refine ⟨fun K a b c poly hab hbc => ?_, fun K a b c poly hab hbc => ?_,
    fun K param a b c poly hab hbc => ?_⟩
  · rw [RegionPerimeterFilter.selected_plain_iff_perimeter,
      RegionPerimeterFilter.selected_plain_iff_perimeter,
      RegionPerimeterFilter.selected_plain_iff_perimeter]
    omega
  · rw [RegionAreaFilter.selected_plain_iff_area, RegionAreaFilter.selected_plain_iff_area,
      RegionAreaFilter.selected_plain_iff_area]
    omega
  · have h1 : RegionBBoxFilter.value K ⟨a, b, false, param⟩ poly =
        RegionBBoxFilter.value K ⟨a, c, false, param⟩ poly :=
      RegionBBoxFilter.value_congr K _ _ poly rfl
    have h2 : RegionBBoxFilter.value K ⟨b, c, false, param⟩ poly =
        RegionBBoxFilter.value K ⟨a, c, false, param⟩ poly :=
      RegionBBoxFilter.value_congr K _ _ poly rfl
    rw [RegionBBoxFilter.selected_plain_iff_value, RegionBBoxFilter.selected_plain_iff_value,
      RegionBBoxFilter.selected_plain_iff_value, h1, h2]
    omega

theorem range_filters_tile_witness :
    (30 : Nat) ≤ 40 ∧ (40 : Nat) ≤ 50 ∧
      ((RegionPerimeterFilter.selected specKernel ⟨30, 50, false⟩ square10 = true ↔
          RegionPerimeterFilter.selected specKernel ⟨30, 40, false⟩ square10 = true ∨
            RegionPerimeterFilter.selected specKernel ⟨40, 50, false⟩ square10 = true) ∧
        ¬ (RegionPerimeterFilter.selected specKernel ⟨30, 40, false⟩ square10 = true ∧
            RegionPerimeterFilter.selected specKernel ⟨40, 50, false⟩ square10 = true)) :=
  ⟨by decide, by decide,
    range_filters_tile.1 specKernel 30 40 50 square10 (by decide) (by decide)⟩

/-- In exact arithmetic: `snap_to_grid` is monotone in its first argument, also across the
change of sign between its two branches: for every grid `g > 0` and all `x ≤ y`,
`snap_to_grid x g ≤ snap_to_grid y g`. -/
theorem snap_to_grid_monotone (x y g : Int) (hg : 0 < g) (hxy : x ≤ y) :
    snap_to_grid x g ≤ snap_to_grid y g := by
  rcases lt_or_le y 0 with hy | hy
  · exact snap_to_grid_mono_neg x y g hg hy hxy
  · rcases lt_or_le x 0 with hx | hx
    · have h1 : snap_to_grid x g ≤ 0 := by
        rw [snap_to_grid_of_neg x g hg hx]
        have hq : 0 ≤ (-x + (g - 1) / 2) / g := Int.ediv_nonneg (by omega) (by omega)
        have := Int.mul_nonneg (show (0 : Int) ≤ g by omega) hq
        omega
      have h2 : 0 ≤ snap_to_grid y g := by
        rw [snap_to_grid_of_nonneg y g hg hy]
        have hq : 0 ≤ (y + g / 2) / g := Int.ediv_nonneg (by omega) (by omega)
        exact Int.mul_nonneg (by omega) hq
      omega
    · exact snap_to_grid_mono_nonneg x y g hg hx hxy

/-- C25: the checker `edge2edge_check_negative` has negative edge output only: it is
constructed with the edge pair output disabled and the negative edge output enabled, and
its `put` is the empty `put` of the base class, so that for every edge pair handed to `put`
the object, with its two negative output containers, is unchanged. -/
theorem edge2edge_check_negative.negative_output_only :
    (∀ (NegativeEdgeOutput : Type) (check : EdgeRelationFilter)
        (l1_negative_output l2_negative_output : NegativeEdgeOutput)
        (different_polygons requires_different_layers with_shielding : Bool),
      (edge2edge_check_negative.create check l1_negative_output l2_negative_output
          different_polygons requires_different_layers
          with_shielding).base.m_has_edge_pair_output = false ∧
        (edge2edge_check_negative.create check l1_negative_output l2_negative_output
          different_polygons requires_different_layers
          with_shielding).base.m_has_negative_edge_output = true) ∧
    (∀ (NegativeEdgeOutput : Type) (c : edge2edge_check_negative NegativeEdgeOutput)
        (edge : EdgePair),
      c.put edge = c ∧
        (c.put edge).mp_l1_negative_output = c.mp_l1_negative_output ∧
        (c.put edge).mp_l2_negative_output = c.mp_l2_negative_output) :=
  ⟨fun _ _ _ _ _ _ _ => ⟨rfl, rfl⟩, fun _ _ _ => ⟨rfl, rfl, rfl⟩⟩

/-- C26: a bounding box parameter which is none of `BoxWidth`, `BoxHeight`, `BoxMaxDim`,
`BoxMinDim`, `BoxAverageDim` is handled as a default and not as a failure:
`RegionBBoxFilter::selected` uses the value 0 for every polygon, so the result is
`(vmin ≤ 0 < vmax) XOR inverse` and does not depend on the polygon.  The function only
returns the truth value; the polygon is an argument which it cannot change. -/
theorem RegionBBoxFilter.selected_unrecognized (K : GeometryKernel) (f : RegionBBoxFilter)
    (poly : Polygon)
    (h : f.m_parameter ≠ BoxWidth ∧ f.m_parameter ≠ BoxHeight ∧ f.m_parameter ≠ BoxMaxDim ∧
      f.m_parameter ≠ BoxMinDim ∧ f.m_parameter ≠ BoxAverageDim) :
    RegionBBoxFilter.value K f poly = 0 ∧
    RegionBBoxFilter.selected K f poly =
      xor (decide (f.m_vmin ≤ 0 ∧ 0 < f.m_vmax)) f.m_inverse ∧
    (∀ poly2 : Polygon, RegionBBoxFilter.selected K f poly2 =
      RegionBBoxFilter.selected K f poly) := by
  obtain ⟨h0, h1, h2, h3, h4⟩ := h
  have hv : ∀ q : Polygon, RegionBBoxFilter.value K f q = 0 := fun q => by
    simp [RegionBBoxFilter.value, h0, h1, h2, h3, h4]
  refine ⟨hv poly, ?_, fun poly2 => ?_⟩
  · cases hi : f.m_inverse <;> simp [RegionBBoxFilter.selected, hv, hi, Bool.decide_and]
  · simp [RegionBBoxFilter.selected, hv]

theorem RegionBBoxFilter.selected_unrecognized_witness :
    ((7 : parameter_type) ≠ BoxWidth ∧ (7 : parameter_type) ≠ BoxHeight ∧
        (7 : parameter_type) ≠ BoxMaxDim ∧ (7 : parameter_type) ≠ BoxMinDim ∧
        (7 : parameter_type) ≠ BoxAverageDim) ∧
      (RegionBBoxFilter.value specKernel ⟨0, 5, false, 7⟩ rect4x10 = 0 ∧
        RegionBBoxFilter.selected specKernel ⟨0, 5, false, 7⟩ rect4x10 =
          xor (decide ((0 : Nat) ≤ 0 ∧ (0 : Nat) < 5)) false ∧
        (∀ poly2 : Polygon, RegionBBoxFilter.selected specKernel ⟨0, 5, false, 7⟩ poly2 =
          RegionBBoxFilter.selected specKernel ⟨0, 5, false, 7⟩ rect4x10)) :=
  ⟨by decide, RegionBBoxFilter.selected_unrecognized specKernel ⟨0, 5, false, 7⟩ rect4x10
    (by decide)⟩

/-- C27: the rectangle class is contained in the rectilinear class, a box polygon being one
equal to its bounding box and a rectilinear polygon one whose edges are all axis-aligned:
every polygon selected by `RectangleFilter (false)` is selected by
`RectilinearFilter (false)`, and every polygon selected by `RectilinearFilter (true)` is
selected by `RectangleFilter (true)`. -/
theorem rectangle_subset_rectilinear :
    (∀ poly : Polygon, RectangleFilter.selected specKernel ⟨false⟩ poly = true →
      RectilinearFilter.selected specKernel ⟨false⟩ poly = true) ∧
    (∀ poly : Polygon, RectilinearFilter.selected specKernel ⟨true⟩ poly = true →
      RectangleFilter.selected specKernel ⟨true⟩ poly = true) := by
  constructor
  · intro poly h
    have hb : poly.is_box = true := by
      simpa [RectangleFilter.selected, specKernel] using h
    have hr := Polygon.is_rectilinear_of_is_box poly hb
    simp [RectilinearFilter.selected, specKernel, hr]
  · intro poly h
    have hr : poly.is_rectilinear = false := by
      simpa [RectilinearFilter.selected, specKernel] using h
    have hb : poly.is_box = false := by
      cases hb : poly.is_box
      · rfl
      · have := Polygon.is_rectilinear_of_is_box poly hb
        rw [hr] at this
        cases this
    simp [RectangleFilter.selected, specKernel, hb]

theorem rectangle_subset_rectilinear_witness :
    RectangleFilter.selected specKernel ⟨false⟩ square10 = true ∧
      RectilinearFilter.selected specKernel ⟨false⟩ square10 = true :=
  ⟨by decide, rectangle_subset_rectilinear.1 square10 (by decide)⟩

/-! ## Fixed-width arithmetic: agreement with the exact formulas -/

/-- The number of values of a type of `bits` bits is twice the bound of the signed range. -/
theorem two_pow_bits (bits : Nat) (hb : 0 < bits) :
    (2 : Int) ^ bits = 2 * 2 ^ (bits - 1) := by
  obtain ⟨n, rfl⟩ : ∃ n, bits = n + 1 := ⟨bits - 1, by omega⟩
  rw [Nat.add_sub_cancel, pow_succ]
  ring

/-- A value of the type is not changed by wrapping. -/
theorem wrap_eq_self (bits : Nat) (x : Int) (hb : 0 < bits) (h : is_coord bits x) :
    wrap bits x = x := by
  have hM := two_pow_bits bits hb
  obtain ⟨h1, h2⟩ := h
  unfold wrap
  rw [Int.emod_eq_of_lt (by omega) (by omega)]
  omega

/-- Where no overflow is met, the fixed-width function computes the exact formula. -/
theorem snap_to_grid_fixed_eq (bits : Nat) (c g : Int) (hb : 0 < bits) (hg : 0 < g)
    (hf : snap_to_grid_fits bits c g) : snap_to_grid_fixed bits c g = snap_to_grid c g := by
  obtain ⟨⟨hc1, hc2⟩, ⟨hg1, hg2⟩, hn, hp⟩ := hf
  have hpos : (0 : Int) < 2 ^ (bits - 1) := by positivity
  rcases lt_or_le c 0 with hc | hc
  · have hs := hn hc
    have h1 : wrap bits (-g) = -g := wrap_eq_self bits _ hb ⟨by omega, by omega⟩
    have h2 : wrap bits (g - 1) = g - 1 := wrap_eq_self bits _ hb ⟨by omega, by omega⟩
    have h3 : Int.tdiv (g - 1) 2 = (g - 1) / 2 := Int.tdiv_eq_ediv (by omega) (by omega)
    have h4 : wrap bits ((g - 1) / 2) = (g - 1) / 2 :=
      wrap_eq_self bits _ hb ⟨by omega, by omega⟩
    have h5 : wrap bits (-c) = -c := wrap_eq_self bits _ hb ⟨by omega, by omega⟩
    have h6 : wrap bits (-c + (g - 1) / 2) = -c + (g - 1) / 2 :=
      wrap_eq_self bits _ hb ⟨by omega, by omega⟩
    have h7 : Int.tdiv (-c + (g - 1) / 2) g = (-c + (g - 1) / 2) / g :=
      Int.tdiv_eq_ediv (by omega) (by omega)
    have hq0 : 0 ≤ (-c + (g - 1) / 2) / g := Int.ediv_nonneg (by omega) (by omega)
    have hq1 : g * ((-c + (g - 1) / 2) / g) ≤ -c + (g - 1) / 2 :=
      Int.mul_ediv_self_le (by omega)
    have hq2 : (-c + (g - 1) / 2) / g ≤ g * ((-c + (g - 1) / 2) / g) := by nlinarith
    have h8 : wrap bits ((-c + (g - 1) / 2) / g) = (-c + (g - 1) / 2) / g :=
      wrap_eq_self bits _ hb ⟨by omega, by omega⟩
    have e9 : -g * ((-c + (g - 1) / 2) / g) = -(g * ((-c + (g - 1) / 2) / g)) := by ring
    have h9 : wrap bits (-g * ((-c + (g - 1) / 2) / g)) = -g * ((-c + (g - 1) / 2) / g) :=
      wrap_eq_self bits _ hb ⟨by omega, by omega⟩
    unfold snap_to_grid_fixed
    rw [if_pos hc, h1, h2, h3, h4, h5, h6, h7, h8, h9, snap_to_grid_of_neg c g hg hc, e9]
  · have hs := hp hc
    have h3 : Int.tdiv g 2 = g / 2 := Int.tdiv_eq_ediv (by omega) (by omega)
    have h4 : wrap bits (g / 2) = g / 2 := wrap_eq_self bits _ hb ⟨by omega, by omega⟩
    have h6 : wrap bits (c + g / 2) = c + g / 2 :=
      wrap_eq_self bits _ hb ⟨by omega, by omega⟩
    have h7 : Int.tdiv (c + g / 2) g = (c + g / 2) / g :=
      Int.tdiv_eq_ediv (by omega) (by omega)
    have hq0 : 0 ≤ (c + g / 2) / g := Int.ediv_nonneg (by omega) (by omega)
    have hq1 : g * ((c + g / 2) / g) ≤ c + g / 2 := Int.mul_ediv_self_le (by omega)
    have hq2 : (c + g / 2) / g ≤ g * ((c + g / 2) / g) := by nlinarith
    have h8 : wrap bits ((c + g / 2) / g) = (c + g / 2) / g :=
      wrap_eq_self bits _ hb ⟨by omega, by omega⟩
    have h9 : wrap bits (g * ((c + g / 2) / g)) = g * ((c + g / 2) / g) :=
      wrap_eq_self bits _ hb ⟨by omega, by omega⟩
    unfold snap_to_grid_fixed
    rw [if_neg (by omega), h3, h4, h6, h7, h8, h9, snap_to_grid_of_nonneg c g hg hc]

/-- The bound of the signed range wraps to the least value of the type. -/
theorem wrap_bound (bits : Nat) (hb : 0 < bits) :
    wrap bits (2 ^ (bits - 1)) = -(2 ^ (bits - 1)) := by
  have hM := two_pow_bits bits hb
  have e : (2 : Int) ^ (bits - 1) + 2 ^ (bits - 1) = 2 ^ bits := by omega
  unfold wrap
  rw [e, Int.emod_self]
  omega

/-- For a type of at least two bits the bound of the signed range is at least two. -/
theorem two_le_bound (bits : Nat) (hb : 1 < bits) : (2 : Int) ≤ 2 ^ (bits - 1) := by
  obtain ⟨n, rfl⟩ : ∃ n, bits = n + 2 := ⟨bits - 2, by omega⟩
  have e : n + 2 - 1 = n + 1 := by omega
  have hpos : (0 : Int) < 2 ^ n := by positivity
  rw [e, pow_succ]
  omega

/-- With the grid 1 the fixed-width function returns its argument, the least value of
the type included. -/
theorem snap_to_grid_fixed_one (bits : Nat) (x : Int) (hb : 1 < bits)
    (hx : is_coord bits x) : snap_to_grid_fixed bits x 1 = x := by
  have hb0 : 0 < bits := by omega
  have hM := two_le_bound bits hb
  obtain ⟨hx1, hx2⟩ := hx
  rcases eq_or_lt_of_le hx1 with hmin | hgt
  · have h1 : wrap bits (-1) = -1 := wrap_eq_self bits _ hb0 ⟨by omega, by omega⟩
    have h2 : wrap bits 0 = 0 := wrap_eq_self bits _ hb0 ⟨by omega, by omega⟩
    have h3 : wrap bits (-(2 ^ (bits - 1))) = -(2 ^ (bits - 1)) :=
      wrap_eq_self bits _ hb0 ⟨by omega, by omega⟩
    have h4 := wrap_bound bits hb0
    have hneg : x < 0 := by omega
    unfold snap_to_grid_fixed
    rw [if_pos hneg, ← hmin]
    simp only [sub_self, neg_neg, Int.tdiv_one, Int.zero_tdiv, h1, h2, h3, h4, add_zero,
      neg_mul, one_mul]
  · have hf : snap_to_grid_fits bits x 1 :=
      ⟨⟨hx1, hx2⟩, ⟨by omega, by omega⟩, fun _ => by omega, fun _ => by omega⟩
    rw [snap_to_grid_fixed_eq bits x 1 hb0 (by decide) hf]
    have h := snap_to_grid_mul_self 1 x (by decide)
    rw [Int.mul_one] at h
    exact h

/-! ## Grid snapping in the coordinate type: the stated properties -/

/-- C4, as stated, fails: the 32-bit coordinate `-2147483645 = -214748365 * 10 + 10 / 2`
lies half a grid unit above a multiple of the even grid `10`; the sum `-c + (g - 1) / 2`
overflows and `snap_to_grid` returns `2147483640`, not `x + g / 2 = -2147483640`. -/
theorem snap_to_grid_fixed_half_right_counterexample :
    (0 : Int) < 10 ∧ (10 : Int) % 2 = 0 ∧ is_coord 32 (-2147483645) ∧ is_coord 32 10 ∧
      (-2147483645 : Int) = -214748365 * 10 + 10 / 2 ∧
      snap_to_grid_fixed 32 (-2147483645) 10 = 2147483640 ∧
      snap_to_grid_fixed 32 (-2147483645) 10 ≠ -2147483645 + 10 / 2 := by
  decide

/-- C4, amended: a coordinate exactly half a grid unit above a multiple of an even grid
`g > 0`, for which `snap_to_grid` meets no overflow, is snapped to the right/top neighbour,
whatever its sign: if `x = k * g + g / 2` then `snap_to_grid x g = x + g / 2 = (k + 1) * g`. -/
theorem snap_to_grid_fixed_half_right (bits : Nat) (x g k : Int) (hb : 0 < bits)
    (hg : 0 < g) (he : g % 2 = 0) (hx : x = k * g + g / 2)
    (hf : snap_to_grid_fits bits x g) :
    snap_to_grid_fixed bits x g = x + g / 2 ∧ x + g / 2 = (k + 1) * g := by
  rw [snap_to_grid_fixed_eq bits x g hb hg hf]
  exact snap_to_grid_half_right x g k hg he hx

theorem snap_to_grid_fixed_half_right_witness :
    0 < 32 ∧ (0 : Int) < 10 ∧ (10 : Int) % 2 = 0 ∧ (-5 : Int) = (-1) * 10 + 10 / 2 ∧
      snap_to_grid_fits 32 (-5) 10 ∧
      (snap_to_grid_fixed 32 (-5) 10 = -5 + 10 / 2 ∧ (-5 : Int) + 10 / 2 = (-1 + 1) * 10) :=
  ⟨by decide, by decide, by decide, by decide, by decide,
    snap_to_grid_fixed_half_right 32 (-5) 10 (-1) (by decide) (by decide) (by decide)
      (by decide) (by decide)⟩

/-- C5, amended: for every even grid `g > 0` and every negative coordinate `x` exactly half
a grid unit between two multiples of `g`, for which `snap_to_grid` meets no overflow
(`-x + (g - 1) / 2` is a value of the coordinate type), `snap_to_grid x g = x + g / 2`: the
value is rounded towards zero, to the right/top neighbour, and not symmetrically to the
positive case (`snap_to_grid (-5) 10 = 0` while `snap_to_grid 5 10 = 10`). -/
theorem snap_to_grid_fixed_neg_half_toward_zero (bits : Nat) (x g : Int) (hb : 0 < bits)
    (hg : 0 < g) (he : g % 2 = 0) (hx : x < 0) (hh : x % g = g / 2)
    (hf : snap_to_grid_fits bits x g) :
    snap_to_grid_fixed bits x g = x + g / 2 ∧ x < snap_to_grid_fixed bits x g ∧
      snap_to_grid_fixed bits x g ≤ 0 ∧
      snap_to_grid_fixed 32 (-5) 10 = 0 ∧ snap_to_grid_fixed 32 5 10 = 10 := by
  rw [snap_to_grid_fixed_eq bits x g hb hg hf]
  obtain ⟨h1, h2, h3, _, _⟩ := snap_to_grid_neg_half_toward_zero x g hg he hx hh
  exact ⟨h1, h2, h3, by decide, by decide⟩

theorem snap_to_grid_fixed_neg_half_toward_zero_witness :
    0 < 32 ∧ (0 : Int) < 10 ∧ (10 : Int) % 2 = 0 ∧ (-15 : Int) < 0 ∧
      (-15 : Int) % 10 = 10 / 2 ∧ snap_to_grid_fits 32 (-15) 10 ∧
      (snap_to_grid_fixed 32 (-15) 10 = -15 + 10 / 2 ∧
        -15 < snap_to_grid_fixed 32 (-15) 10 ∧ snap_to_grid_fixed 32 (-15) 10 ≤ 0 ∧
        snap_to_grid_fixed 32 (-5) 10 = 0 ∧ snap_to_grid_fixed 32 5 10 = 10) :=
  ⟨by decide, by decide, by decide, by decide, by decide, by decide,
    snap_to_grid_fixed_neg_half_toward_zero 32 (-15) 10 (by decide) (by decide) (by decide)
      (by decide) (by decide) (by decide)⟩

/-- C6, as stated, fails: the 32-bit coordinate `2147483643` is not at a half-grid position
of the grid `10` (its remainder is 3); `snap_to_grid` overflows on it and returns
`-2147483640`, and it returns `-2147483640` on `-2147483643` as well, so snapping does not
commute with negation. -/
theorem snap_to_grid_fixed_neg_counterexample :
    (0 : Int) < 10 ∧ is_coord 32 2147483643 ∧ is_coord 32 (-2147483643) ∧ is_coord 32 10 ∧
      ((10 : Int) % 2 = 0 → (2147483643 : Int) % 10 ≠ 10 / 2) ∧
      snap_to_grid_fixed 32 2147483643 10 = -2147483640 ∧
      snap_to_grid_fixed 32 (-2147483643) 10 = -2147483640 ∧
      snap_to_grid_fixed 32 (-2147483643) 10 ≠ -snap_to_grid_fixed 32 2147483643 10 := by
  decide

/-- C6, amended: for every grid `g > 0` and every coordinate `x` which is not at a
half-grid position (`x % g ≠ g / 2` when `g` is even, no restriction when `g` is odd), if
`snap_to_grid` meets no overflow on `x` and on `-x`, then snapping commutes with negation:
`snap_to_grid (-x) g = -snap_to_grid x g`.  Here `x % g` is the remainder in the range from
`0` to `g - 1`, also for a negative `x`. -/
theorem snap_to_grid_fixed_neg (bits : Nat) (x g : Int) (hb : 0 < bits) (hg : 0 < g)
    (hh : g % 2 = 0 → x % g ≠ g / 2) (hf : snap_to_grid_fits bits x g)
    (hfn : snap_to_grid_fits bits (-x) g) :
    snap_to_grid_fixed bits (-x) g = -snap_to_grid_fixed bits x g := by
  rw [snap_to_grid_fixed_eq bits x g hb hg hf, snap_to_grid_fixed_eq bits (-x) g hb hg hfn]
  exact snap_to_grid_neg x g hg hh

theorem snap_to_grid_fixed_neg_witness :
    0 < 32 ∧ (0 : Int) < 10 ∧ ((10 : Int) % 2 = 0 → (7 : Int) % 10 ≠ 10 / 2) ∧
      snap_to_grid_fits 32 7 10 ∧ snap_to_grid_fits 32 (-7) 10 ∧
      snap_to_grid_fixed 32 (-7) 10 = -snap_to_grid_fixed 32 7 10 :=
  ⟨by decide, by decide, by decide, by decide, by decide,
    snap_to_grid_fixed_neg 32 7 10 (by decide) (by decide) (by decide) (by decide)
      (by decide)⟩

/-- C12, as stated, fails: `2147483646 = 306783378 * 7` is a multiple of the grid `7` and a
32-bit coordinate; the sum `c + g / 2` overflows and `snap_to_grid` returns `-2147483646`. -/
theorem snap_to_grid_fixed_multiples_counterexample :
    (0 : Int) < 7 ∧ is_coord 32 (306783378 * 7) ∧ is_coord 32 7 ∧
      (306783378 * 7 : Int) = 2147483646 ∧
      snap_to_grid_fixed 32 (306783378 * 7) 7 = -2147483646 ∧
      snap_to_grid_fixed 32 (306783378 * 7) 7 ≠ 306783378 * 7 := by
  decide

/-- C12, amended: every multiple of the grid on which `snap_to_grid` meets no overflow is a
fixed point of snapping: for a grid `g > 0` and every `k` such that `k * g` fits,
`snap_to_grid (k * g) g = k * g`; in particular `snap_to_grid 0 g = 0` and
`snap_to_grid x 1 = x` for every coordinate `x`; and snapping is idempotent for every `x`
such that neither application overflows. -/
theorem snap_to_grid_fixed_multiples (bits : Nat) (g : Int) (hb : 1 < bits) (hg : 0 < g)
    (hgc : is_coord bits g) :
    (∀ k : Int, snap_to_grid_fits bits (k * g) g →
      snap_to_grid_fixed bits (k * g) g = k * g) ∧
    snap_to_grid_fixed bits 0 g = 0 ∧
    (∀ x : Int, is_coord bits x → snap_to_grid_fixed bits x 1 = x) ∧
    (∀ x : Int, snap_to_grid_fits bits x g →
      snap_to_grid_fits bits (snap_to_grid_fixed bits x g) g →
      snap_to_grid_fixed bits (snap_to_grid_fixed bits x g) g =
        snap_to_grid_fixed bits x g) := by
  have hb0 : 0 < bits := by omega
  refine ⟨fun k hf => ?_, ?_, fun x hx => snap_to_grid_fixed_one bits x hb hx,
    fun x hf hfs => ?_⟩
  · rw [snap_to_grid_fixed_eq bits (k * g) g hb0 hg hf]
    exact snap_to_grid_mul_self g k hg
  · have hf : snap_to_grid_fits bits 0 g :=
      ⟨⟨by omega, by omega⟩, hgc, fun h => by omega, fun _ => by omega⟩
    rw [snap_to_grid_fixed_eq bits 0 g hb0 hg hf]
    have h := snap_to_grid_mul_self g 0 hg
    rw [Int.zero_mul] at h
    exact h
  · obtain ⟨m, hm⟩ := snap_to_grid_eq_mul x g
    have hx := snap_to_grid_fixed_eq bits x g hb0 hg hf
    rw [hx] at hfs ⊢
    rw [snap_to_grid_fixed_eq bits _ g hb0 hg hfs, hm]
    have h := snap_to_grid_mul_self g m hg
    rw [Int.mul_comm] at h
    exact h

theorem snap_to_grid_fixed_multiples_witness :
    1 < 32 ∧ (0 : Int) < 7 ∧ is_coord 32 7 ∧ snap_to_grid_fits 32 (306783377 * 7) 7 ∧
      snap_to_grid_fixed 32 (306783377 * 7) 7 = 306783377 * 7 :=
  ⟨by decide, by decide, by decide, by decide,
    (snap_to_grid_fixed_multiples 32 7 (by decide) (by decide) (by decide)).1 306783377
      (by decide)⟩

/-- C24, as stated, fails: for the 32-bit coordinates `2147483640 ≤ 2147483644` and the grid
`10`, `snap_to_grid` returns `2147483640` for the first and, by the overflow of
`c + g / 2`, `-2147483640` for the second. -/
theorem snap_to_grid_fixed_monotone_counterexample :
    (0 : Int) < 10 ∧ is_coord 32 2147483640 ∧ is_coord 32 2147483644 ∧ is_coord 32 10 ∧
      (2147483640 : Int) ≤ 2147483644 ∧
      snap_to_grid_fixed 32 2147483640 10 = 2147483640 ∧
      snap_to_grid_fixed 32 2147483644 10 = -2147483640 ∧
      ¬ (snap_to_grid_fixed 32 2147483640 10 ≤ snap_to_grid_fixed 32 2147483644 10) := by
  decide

/-- C24, amended: `snap_to_grid` is monotone in its first argument, also across the change
of sign between its two branches, where it meets no overflow: for every grid `g > 0` and
all coordinates `x ≤ y` on which `snap_to_grid` fits,
`snap_to_grid x g ≤ snap_to_grid y g`. -/
theorem snap_to_grid_fixed_monotone (bits : Nat) (x y g : Int) (hb : 0 < bits) (hg : 0 < g)
    (hxy : x ≤ y) (hfx : snap_to_grid_fits bits x g) (hfy : snap_to_grid_fits bits y g) :
    snap_to_grid_fixed bits x g ≤ snap_to_grid_fixed bits y g := by
  rw [snap_to_grid_fixed_eq bits x g hb hg hfx, snap_to_grid_fixed_eq bits y g hb hg hfy]
  exact snap_to_grid_monotone x y g hg hxy

theorem snap_to_grid_fixed_monotone_witness :
    0 < 32 ∧ (0 : Int) < 10 ∧ (-6 : Int) ≤ 2147483642 ∧ snap_to_grid_fits 32 (-6) 10 ∧
      snap_to_grid_fits 32 2147483642 10 ∧
      snap_to_grid_fixed 32 (-6) 10 ≤ snap_to_grid_fixed 32 2147483642 10 :=
  ⟨by decide, by decide, by decide, by decide, by decide,
    snap_to_grid_fixed_monotone 32 (-6) 2147483642 10 (by decide) (by decide) (by decide)
      (by decide) (by decide)⟩

/-! ## The bounding box filter in `value_type`: the stated property -/

/-- C8, as stated, fails for `BoxAverageDim`: the bounding box of `square3e9` has the width
and the height 3000000000, both values of a 32-bit `value_type`; their sum wraps around, the
filter computes `v = 852516352` and selects the polygon for the bounds 0 and 1000000000,
while `(w + h) / 2 = 3000000000` is not below 1000000000. -/
theorem RegionBBoxFilter.selected_fixed_average_counterexample :
    specKernel.width (specKernel.box square3e9) = 3000000000 ∧
      specKernel.height (specKernel.box square3e9) = 3000000000 ∧
      (3000000000 : Nat) < 2 ^ 32 ∧
      RegionBBoxFilter.value_fixed 32 specKernel ⟨0, 1000000000, false, BoxAverageDim⟩
        square3e9 = 852516352 ∧
      RegionBBoxFilter.selected_fixed 32 specKernel ⟨0, 1000000000, false, BoxAverageDim⟩
        square3e9 = true ∧
      ¬ (0 ≤ (3000000000 + 3000000000) / 2 ∧ (3000000000 + 3000000000) / 2 < 1000000000) := by
  decide

/-- C8, amended: for every polygon whose bounding box has width `w` and height `h`, the
non-inverse filter `RegionBBoxFilter (vmin, vmax, false, param)` selects the polygon if and
only if `vmin ≤ v < vmax`, with `v = w` for `BoxWidth`, `h` for `BoxHeight`, `max w h` for
`BoxMaxDim`, `min w h` for `BoxMinDim`, and for `BoxAverageDim` the sum `w + h` reduced
modulo `2 ^ bits` (the overflow of `value_type`) and halved, rounded down, which is
`(w + h) / 2` rounded down whenever `w + h` is a value of `value_type`.  The 4 x 10
rectangle with the bounds 3 and 5 is selected for `BoxWidth` and not for `BoxHeight`. -/
theorem RegionBBoxFilter.selected_fixed_iff_metric :
    (∀ (bits : Nat) (K : GeometryKernel) (vmin vmax : Nat) (poly : Polygon),
      (RegionBBoxFilter.selected_fixed bits K ⟨vmin, vmax, false, BoxWidth⟩ poly = true ↔
        vmin ≤ K.width (K.box poly) ∧ K.width (K.box poly) < vmax) ∧
      (RegionBBoxFilter.selected_fixed bits K ⟨vmin, vmax, false, BoxHeight⟩ poly = true ↔
        vmin ≤ K.height (K.box poly) ∧ K.height (K.box poly) < vmax) ∧
      (RegionBBoxFilter.selected_fixed bits K ⟨vmin, vmax, false, BoxMaxDim⟩ poly = true ↔
        vmin ≤ max (K.width (K.box poly)) (K.height (K.box poly)) ∧
          max (K.width (K.box poly)) (K.height (K.box poly)) < vmax) ∧
      (RegionBBoxFilter.selected_fixed bits K ⟨vmin, vmax, false, BoxMinDim⟩ poly = true ↔
        vmin ≤ min (K.width (K.box poly)) (K.height (K.box poly)) ∧
          min (K.width (K.box poly)) (K.height (K.box poly)) < vmax) ∧
      (RegionBBoxFilter.selected_fixed bits K ⟨vmin, vmax, false, BoxAverageDim⟩ poly = true ↔
        vmin ≤ (K.width (K.box poly) + K.height (K.box poly)) % 2 ^ bits / 2 ∧
          (K.width (K.box poly) + K.height (K.box poly)) % 2 ^ bits / 2 < vmax) ∧
      (K.width (K.box poly) + K.height (K.box poly) < 2 ^ bits →
        (RegionBBoxFilter.selected_fixed bits K ⟨vmin, vmax, false, BoxAverageDim⟩ poly =
            true ↔
          vmin ≤ (K.width (K.box poly) + K.height (K.box poly)) / 2 ∧
            (K.width (K.box poly) + K.height (K.box poly)) / 2 < vmax))) ∧
    specKernel.width (specKernel.box rect4x10) = 4 ∧
    specKernel.height (specKernel.box rect4x10) = 10 ∧
    RegionBBoxFilter.selected_fixed 32 specKernel ⟨3, 5, false, BoxWidth⟩ rect4x10 = true ∧
    RegionBBoxFilter.selected_fixed 32 specKernel ⟨3, 5, false, BoxHeight⟩ rect4x10 =
      false := by
  refine ⟨fun bits K vmin vmax poly => ⟨?_, ?_, ?_, ?_, ?_, fun h => ?_⟩,
    by decide, by decide, by decide, by decide⟩
  · simp [RegionBBoxFilter.selected_fixed, RegionBBoxFilter.value_fixed]
  · simp [RegionBBoxFilter.selected_fixed, RegionBBoxFilter.value_fixed]
  · simp [RegionBBoxFilter.selected_fixed, RegionBBoxFilter.value_fixed]
  · simp [RegionBBoxFilter.selected_fixed, RegionBBoxFilter.value_fixed]
  · simp [RegionBBoxFilter.selected_fixed, RegionBBoxFilter.value_fixed]
  · simp [RegionBBoxFilter.selected_fixed, RegionBBoxFilter.value_fixed, Nat.mod_eq_of_lt h]

theorem RegionBBoxFilter.selected_fixed_iff_metric_witness :
    specKernel.width (specKernel.box rect4x10) + specKernel.height (specKernel.box rect4x10) <
        2 ^ 32 ∧
      (RegionBBoxFilter.selected_fixed 32 specKernel ⟨7, 8, false, BoxAverageDim⟩ rect4x10 =
          true ↔
        7 ≤ (specKernel.width (specKernel.box rect4x10) +
            specKernel.height (specKernel.box rect4x10)) / 2 ∧
          (specKernel.width (specKernel.box rect4x10) +
            specKernel.height (specKernel.box rect4x10)) / 2 < 8) :=
  ⟨by decide,
    (RegionBBoxFilter.selected_fixed_iff_metric.1 32 specKernel 7 8 rect4x10).2.2.2.2.2
      (by decide)⟩

end db
